import Mathlib

/-! Node election in the mixin kernel.

A shallow embedding of `kernel/election.go` (node pledge / accept validation, the
closest-genesis-node selection, the finalization of an accept snapshot, the reload of the
consensus nodes) and of `common/integer.go` (construction, comparison, text and binary
encodings), followed by theorems about the embedded functions.

Conventions of the embedding
* `uint64` values are `Nat`, every wrapping operation carries an explicit `% 2 ^ 64`;
* `int`, `int64`, `time.Duration` and `big.Int` values are `Int`;
* a Go `error` result is `Option Err` (`none` is `nil`);
* the store behind `node.store` is a record of functions, and every call that
  writes to it is recorded in the returned list of `StoreCall`s;
* a function that may panic returns a result with a case for the panic.
-/

namespace Mixin

/-! ## crypto.Hash and nodeDistance -/

/-- One octet. -/
abbrev Byte := Fin 256

/-- The Go type `crypto.Hash`, an array of 32 bytes. -/
abbrev Hash := { bs : List Byte // bs.length = 32 }

/-- The Go call `new(big.Int).SetBytes(b)`: the bytes read as a big-endian unsigned integer. -/
def setBytes (bs : List Byte) : Int :=
  bs.foldl (fun acc b => acc * 256 + (b.val : Int)) 0

/-- The function `nodeDistance` of `kernel/election.go`. -/
def nodeDistance (a b : Hash) : Int :=
  let ai := setBytes a.val
  let bi := setBytes b.val
  let si := ai - bi
  let ai := (si.natAbs : Int)
  let mi := ai % 100
  mi

/-- One iteration of the `for _, id := range node.genesisNodes` loop of
`finalizeNodeAcceptSnapshot`; the state is the pair `(externalId, distance)`. -/
def selectStep (target : Hash) (st : Hash × Int) (id : Hash) : Hash × Int :=
  let nd := nodeDistance target id
  if nd < st.2 then (id, nd) else st

/-- Lines 68-76 of `finalizeNodeAcceptSnapshot`: the external id chosen among the genesis
nodes for the node `target`. An empty list makes `node.genesisNodes[0]` fail (`none`). -/
def selectExternal (target : Hash) (genesisNodes : List Hash) : Option Hash :=
  match genesisNodes with
  | [] => none
  | g0 :: _ =>
    let externalId := g0
    let distance := nodeDistance target externalId
    some (genesisNodes.foldl (selectStep target) (externalId, distance)).1

/-- A hash whose last byte is `b` and whose other bytes are zero. -/
def hashOfByte (b : Byte) : Hash := ⟨List.replicate 31 0 ++ [b], by simp⟩

/-! ## Machine integers -/

/-- The Go conversion `uint64(x)` of a signed integer: reduction modulo `2 ^ 64`. -/
def toUint64 (x : Int) : Nat := (x % (2 : Int) ^ 64).toNat

/-- The Go conversions `int64(u)` and `time.Duration(u)` of a `uint64`: the two's complement
reading of the low 64 bits. -/
def toInt64 (u : Nat) : Int :=
  if u % 2 ^ 64 < 2 ^ 63 then ((u % 2 ^ 64 : Nat) : Int) else ((u % 2 ^ 64 : Nat) : Int) - (2 : Int) ^ 64

/-- Addition of `uint64` values, wrapping. -/
def addU64 (a b : Nat) : Nat := (a + b) % 2 ^ 64

/-- Subtraction of `uint64` values, wrapping. -/
def subU64 (a b : Nat) : Nat := (a % 2 ^ 64 + (2 ^ 64 - b % 2 ^ 64)) % 2 ^ 64

/-- Multiplication of `uint64` values, wrapping. -/
def mulU64 (a b : Nat) : Nat := (a * b) % 2 ^ 64

/-! ## common.Integer -/

/-- The constant `Precision` of `common/integer.go`. -/
def Precision : Nat := 8

/-- The Go type `common.Integer`, a wrapped `big.Int`. -/
structure Integer where
  i : Int
deriving DecidableEq

/-- The function `NewInteger`: `x` scaled by `int64(math.Pow(10, Precision))`, which is
exactly `10 ^ 8`. -/
def NewInteger (x : Nat) : Integer :=
  let p : Int := (x : Int)
  let d : Int := (10 : Int) ^ Precision
  ⟨p * d⟩

/-- The method `Integer.Cmp`, that is `big.Int.Cmp`: `-1`, `0` or `1`. -/
def Integer.Cmp (x y : Integer) : Int :=
  if x.i < y.i then -1 else if x.i = y.i then 0 else 1

/-- The method `Integer.String`: the decimal digits of the scaled value (`big.Int.String`, with
a leading minus sign when negative) with a point before the last `Precision` digits. -/
def Integer.String (x : Integer) : String :=
  let s := toString x.i
  let p : Int := (s.length : Int) - (Precision : Int)
  if p > 0 then s.take p.toNat ++ "." ++ s.drop p.toNat
  else "0." ++ String.mk (List.replicate (-p).toNat '0') ++ s

/-! ## Data model -/

/-- Modelled from the spec: the declaration of `crypto.Key` is not part of the sources at hand;
a key is a fixed-size value of 32 bytes, and this is `len(crypto.Key{})`. -/
def KeySize : Nat := 32

/-- Modelled from the spec: the declaration of `common.Address` is not part of the sources at
hand; the signer of a node is a public key identity. -/
structure Address where
  PublicSpendKey : List Byte
deriving DecidableEq

/-- Modelled from the spec: the node states named by the membership state machine; the
declaration of the constants `common.NodeState...` is not part of the sources at hand. -/
inductive NodeState where
  | Pledging
  | Accepted
  | Departed
  | Removed
deriving DecidableEq

/-- The Go type `common.Node` (a consensus node), with the fields the election code reads. -/
structure ConsensusNode where
  Signer : Address
  State : NodeState
  Timestamp : Nat
  Transaction : Hash
deriving DecidableEq

/-- The Go type `common.Input`, with the field the election code reads. -/
structure Input where
  Hash : Hash
deriving DecidableEq

/-- The Go type `common.Output`, with the fields the election code reads; `Typ` is the field
`Type`, a `uint8`. -/
structure Output where
  Typ : Nat
  Amount : Integer
deriving DecidableEq

/-- The Go type `common.VersionedTransaction`, with the fields the election code reads. -/
structure VersionedTransaction where
  Asset : Hash
  Inputs : List Input
  Outputs : List Output
  Extra : List Byte
deriving DecidableEq

/-- The Go type `common.Snapshot`, with the fields the election code reads; `RoundNumber` and
`Timestamp` are `uint64`. -/
structure Snapshot where
  NodeId : Hash
  RoundNumber : Nat
  Timestamp : Nat
deriving DecidableEq

/-- The references of a round: `Self` and `External` round hashes. -/
structure RoundLink where
  Self : Hash
  External : Hash
deriving DecidableEq

/-- The Go type `CacheRound`, with the fields the election code reads or writes and the
accumulated snapshots named by the data model. `References` is a struct value: line 85 assigns
to `cache.References.External` of a round built without references. -/
structure CacheRound where
  NodeId : Hash
  Number : Nat
  Timestamp : Nat
  References : RoundLink
  Snapshots : List Snapshot
deriving DecidableEq

/-- The Go type `FinalRound`, with the fields named by the data model. -/
structure FinalRound where
  NodeId : Hash
  Number : Nat
  Start : Nat
  End : Nat
  Hash : Hash
deriving DecidableEq

/-- The Go type `RoundGraph`: the two maps from node id to round (a missing key and a nil
entry both read as `none`) and the graph timestamp. -/
structure RoundGraph where
  CacheRound : Hash → Option CacheRound
  FinalRound : Hash → Option FinalRound
  GraphTimestamp : Nat

/-- An error returned by the store. -/
structure StoreError where
  text : String
deriving DecidableEq

/-- The Go type `common.SnapshotWithTopologicalOrder`. -/
structure SnapshotWithTopologicalOrder where
  Snapshot : Snapshot
  TopologicalOrder : Nat
deriving DecidableEq

/-- A write issued to the store. -/
inductive StoreCall where
  | AddNodeOperation (tx : VersionedTransaction) (timestamp : Nat) (threshold : Nat)
  | StartNewRound (nodeId : Hash) (number : Nat) (references : RoundLink) (timestamp : Nat)
  | WriteSnapshot (topo : SnapshotWithTopologicalOrder)
deriving DecidableEq

/-- Modelled from the spec: the store adapter contract, for the operations the election code
calls. `ReadTransaction` yields a transaction or fails; `AddNodeOperation` takes the
transaction, the timestamp and the lock threshold and may fail. The three operations that
`finalizeNodeAcceptSnapshot` calls one after the other take as first argument the writes
issued before them in the same run, on which the answer of a store may depend. -/
structure Store where
  ReadTransaction : Hash → Except StoreError VersionedTransaction
  AddNodeOperation : VersionedTransaction → Nat → Nat → Option StoreError
  StartNewRound : List StoreCall → Hash → Nat → RoundLink → Nat → Option StoreError
  WriteSnapshot : List StoreCall → SnapshotWithTopologicalOrder → Option StoreError
  ReadSnapshotsForNodeRound :
    List StoreCall → Hash → Nat → Except StoreError (List SnapshotWithTopologicalOrder)

/-- The Go type `Node` of package kernel, with the fields the election code reads.
`ConsensusNodes` is listed in the order in which `range` visits it; `TopoCounter` is the
state of the topological counter. -/
structure Node where
  IdForNetwork : Hash
  networkId : Hash
  epoch : Nat
  Graph : RoundGraph
  ConsensusNodes : List ConsensusNode
  ConsensusPledging : Option ConsensusNode
  genesisNodes : List Hash
  store : Store
  TopoCounter : Nat

/-- The constants of package `config` that the election code uses; their declarations are not
part of the sources at hand, so they are parameters. `SnapshotRoundGap` is a `uint64`, the
periods are `time.Duration` values and the accept hours are `int`s. -/
structure Config where
  SnapshotRoundGap : Nat
  SnapshotReferenceThreshold : Nat
  KernelNodePledgePeriodMinimum : Int
  KernelNodeAcceptPeriodMaximum : Int
  KernelNodeAcceptTimeBegin : Int
  KernelNodeAcceptTimeEnd : Int
  KernelNodeOperationLockThreshold : Int

/-- The parts of packages `common` and `crypto` that the election code uses and whose
declarations are not part of the sources at hand: the constants `XINAssetId` and
`OutputTypeNodePledge`, and `signerId signer networkId`, the value of
`signer.Hash().ForNetwork(networkId)`. -/
structure Common where
  XINAssetId : Hash
  OutputTypeNodePledge : Nat
  signerId : Address → Hash → Hash

/-- The readings of `time.Now().UnixNano()` (each an `int64`) at the three places where
`validateNodePledgeSnapshot` reads the clock: lines 99, 115 and 116. -/
structure PledgeClock where
  now99 : Int
  now115 : Int
  now116 : Int
deriving DecidableEq

/-! ## Errors -/

/-- The errors the validation functions return: one constructor for each `fmt.Errorf` format
of `kernel/election.go`, carrying the formatted arguments, and one for an error of the store. -/
inductive Err where
  | store (e : StoreError)
  | invalidSnapshotTimestamp (a b : Int)
  | invalidPledgePeriod (minimum elapse : Int)
  | invalidNodeState (signer : Address) (state : NodeState)
  | invalidNodeAsset (asset : Hash)
  | invalidOutputsCountPledge (n : Nat)
  | invalidExtraLength (n : Nat)
  | invalidPledgeAmount (amount : Integer)
  | invalidOutputsCountAccept (n : Nat)
  | invalidInputsCountAccept (n : Nat)
  | invalidConsensusStatus
  | invalidPledgingNode (id nodeId : Hash)
  | invalidPledgeUtxoSource (pledged input : Hash)
  | invalidPledgeUtxoCount (n : Nat)
  | invalidPledgeUtxoType (t : Nat)
  | invalidPledgeAndAcceptKey (pledge accept : List Byte)
  | invalidSnapshotRound (n : Nat)
  | invalidGraphRound (nodeId : Hash) (number : Nat)
  | invalidNodeAcceptHour (hour : Int)
  | invalidAcceptPeriod (maximum elapse : Int)
deriving DecidableEq

/-- The `String` methods of the types whose declarations are not part of the sources at hand,
as used by the `%s` verbs of the error formats. -/
structure Stringers where
  hash : Hash → String
  address : Address → String
  state : NodeState → String

/-- One hexadecimal digit. -/
def hexDigit (n : Nat) : Char := "0123456789abcdef".toList.getD n '0'

/-- The Go function `hex.EncodeToString`. -/
def hexEncodeToString (bs : List Byte) : String :=
  String.mk (bs.flatMap (fun b => [hexDigit (b.val / 16), hexDigit (b.val % 16)]))

/-- The text of an error, `err.Error()`: the format of the `fmt.Errorf` call with its
arguments filled in. -/
def Err.Error (sx : Stringers) : Err → String
  | .store e => e.text
  | .invalidSnapshotTimestamp a b => "invalid snapshot timestamp " ++ toString a ++ " " ++ toString b
  | .invalidPledgePeriod m e => "invalid pledge period " ++ toString m ++ " " ++ toString e
  | .invalidNodeState signer state => "invalid node state " ++ sx.address signer ++ " " ++ sx.state state
  | .invalidNodeAsset asset => "invalid node asset " ++ sx.hash asset
  | .invalidOutputsCountPledge n => "invalid outputs count " ++ toString n ++ " for pledge transaction"
  | .invalidExtraLength n => "invalid extra length " ++ toString n ++ " for pledge transaction"
  | .invalidPledgeAmount amount => "invalid pledge amount " ++ amount.String
  | .invalidOutputsCountAccept n => "invalid outputs count " ++ toString n ++ " for accept transaction"
  | .invalidInputsCountAccept n => "invalid inputs count " ++ toString n ++ " for accept transaction"
  | .invalidConsensusStatus => "invalid consensus status"
  | .invalidPledgingNode id nodeId => "invalid pledging node " ++ sx.hash id ++ " " ++ sx.hash nodeId
  | .invalidPledgeUtxoSource a b => "invalid plede utxo source " ++ sx.hash a ++ " " ++ sx.hash b
  | .invalidPledgeUtxoCount n => "invalid pledge utxo count " ++ toString n
  | .invalidPledgeUtxoType t => "invalid pledge utxo type " ++ toString t
  | .invalidPledgeAndAcceptKey a b =>
    "invalid pledge and accpet key " ++ hexEncodeToString a ++ " " ++ hexEncodeToString b
  | .invalidSnapshotRound n => "invalid snapshot round " ++ toString n
  | .invalidGraphRound nodeId number => "invalid graph round " ++ sx.hash nodeId ++ " " ++ toString number
  | .invalidNodeAcceptHour h => "invalid node accept hour " ++ toString h
  | .invalidAcceptPeriod m e => "invalid accept period " ++ toString m ++ " " ++ toString e

/-! ## Validation of pledge and accept snapshots -/

/-- The Go function `bytes.Compare`: lexicographic comparison, `-1`, `0` or `1`. -/
def bytesCompare : List Byte → List Byte → Int
  | [], [] => 0
  | [], _ :: _ => -1
  | _ :: _, [] => 1
  | a :: as, b :: bs =>
    if a.val < b.val then -1 else if b.val < a.val then 1 else bytesCompare as bs

/-- The loop `for _, cn := range node.ConsensusNodes` of `validateNodePledgeSnapshot`
(lines 101-112): the first error met, or `none` when every node passes. -/
def pledgeNodesCheck (cfg : Config) (timestamp : Nat) : List ConsensusNode → Option Err
  | [] => none
  | cn :: rest =>
    if timestamp < cn.Timestamp then
      some (.invalidSnapshotTimestamp cn.Timestamp timestamp) else
    let elapse := toInt64 (subU64 timestamp cn.Timestamp)
    if elapse < cfg.KernelNodePledgePeriodMinimum then
      some (.invalidPledgePeriod cfg.KernelNodePledgePeriodMinimum elapse) else
    if cn.State ≠ NodeState.Accepted then
      some (.invalidNodeState cn.Signer cn.State) else
    pledgeNodesCheck cfg timestamp rest

/-- The variable `timestamp` of `validateNodePledgeSnapshot` (lines 97-100). -/
def pledgeTimestamp (node : Node) (clock : PledgeClock) (s : Snapshot) : Nat :=
  if s.Timestamp = 0 ∧ s.NodeId = node.IdForNetwork then toUint64 clock.now99 else s.Timestamp

/-- The function `validateNodePledgeSnapshot`. The result is the returned error together with
the writes issued to the store. The match on `tx.Outputs` is the test `len(tx.Outputs) != 1`
and binds `tx.Outputs[0]`. -/
def validateNodePledgeSnapshot (cfg : Config) (cm : Common) (node : Node) (clock : PledgeClock)
    (s : Snapshot) (tx : VersionedTransaction) : Option Err × List StoreCall :=
  let timestamp := pledgeTimestamp node clock s
  match pledgeNodesCheck cfg timestamp node.ConsensusNodes with
  | some err => (some err, [])
  | none =>
    let threshold := mulU64 cfg.SnapshotRoundGap cfg.SnapshotReferenceThreshold
    if timestamp > addU64 (toUint64 clock.now115) threshold then
      (some (.invalidSnapshotTimestamp clock.now116 timestamp), []) else
    match node.ConsensusPledging with
    | some cn => (some (.invalidNodeState cn.Signer cn.State), [])
    | none =>
      if tx.Asset ≠ cm.XINAssetId then
        (some (.invalidNodeAsset tx.Asset), []) else
      match tx.Outputs with
      | [output0] =>
        if tx.Extra.length ≠ 2 * KeySize then
          (some (.invalidExtraLength tx.Extra.length), []) else
        if output0.Amount.Cmp (NewInteger 10000) ≠ 0 then
          (some (.invalidPledgeAmount output0.Amount), []) else
        let lock := toUint64 cfg.KernelNodeOperationLockThreshold
        ((node.store.AddNodeOperation tx timestamp lock).map Err.store,
          [StoreCall.AddNodeOperation tx timestamp lock])
      | _ => (some (.invalidOutputsCountPledge tx.Outputs.length), [])

/-- The hour of the day of an accept snapshot, `hours % 24` with
`hours := int((s.Timestamp - node.epoch) / 3600000000000)` (lines 184-186); the remainder
of Go truncates towards zero. -/
def acceptHour (epoch timestamp : Nat) : Int :=
  let since := subU64 timestamp epoch
  let hours : Int := ((since / 3600000000000 : Nat) : Int)
  hours.tmod 24

/-- The function `validateNodeAcceptSnapshot`; it issues no write to the store. The match on
`tx.Inputs` is the test `len(tx.Inputs) != 1` and binds `tx.Inputs[0]`; the match on
`pledge.Outputs` is the test `len(pledge.Outputs) != 1` and binds `pledge.Outputs[0]`. -/
def validateNodeAcceptSnapshot (cfg : Config) (cm : Common) (node : Node)
    (s : Snapshot) (tx : VersionedTransaction) : Option Err :=
  if tx.Asset ≠ cm.XINAssetId then
    some (.invalidNodeAsset tx.Asset) else
  if tx.Outputs.length ≠ 1 then
    some (.invalidOutputsCountAccept tx.Outputs.length) else
  match tx.Inputs with
  | [input0] =>
    match node.ConsensusPledging with
    | none => some .invalidConsensusStatus
    | some pledging =>
      let id := cm.signerId pledging.Signer node.networkId
      if id ≠ s.NodeId then
        some (.invalidPledgingNode id s.NodeId) else
      if pledging.Transaction ≠ input0.Hash then
        some (.invalidPledgeUtxoSource pledging.Transaction input0.Hash) else
      match node.store.ReadTransaction input0.Hash with
      | .error err => some (.store err)
      | .ok pledge =>
        match pledge.Outputs with
        | [pledgeOutput0] =>
          if pledgeOutput0.Typ ≠ cm.OutputTypeNodePledge then
            some (.invalidPledgeUtxoType pledgeOutput0.Typ) else
          if bytesCompare pledge.Extra tx.Extra ≠ 0 then
            some (.invalidPledgeAndAcceptKey pledge.Extra tx.Extra) else
          if s.RoundNumber ≠ 0 then
            some (.invalidSnapshotRound s.RoundNumber) else
          if s.Timestamp < node.epoch then
            some (.invalidSnapshotTimestamp node.epoch s.Timestamp) else
          match node.Graph.CacheRound s.NodeId with
          | some r => some (.invalidGraphRound s.NodeId r.Number)
          | none =>
            match node.Graph.FinalRound s.NodeId with
            | some r => some (.invalidGraphRound s.NodeId r.Number)
            | none =>
              let hour := acceptHour node.epoch s.Timestamp
              if hour < cfg.KernelNodeAcceptTimeBegin ∨ hour > cfg.KernelNodeAcceptTimeEnd then
                some (.invalidNodeAcceptHour hour) else
              let threshold := mulU64 cfg.SnapshotRoundGap cfg.SnapshotReferenceThreshold
              if addU64 s.Timestamp (mulU64 threshold 2) < node.Graph.GraphTimestamp then
                some (.invalidSnapshotTimestamp node.Graph.GraphTimestamp s.Timestamp) else
              if s.Timestamp < pledging.Timestamp then
                some (.invalidSnapshotTimestamp pledging.Timestamp s.Timestamp) else
              let elapse := toInt64 (subU64 s.Timestamp pledging.Timestamp)
              if elapse > cfg.KernelNodeAcceptPeriodMaximum then
                some (.invalidAcceptPeriod cfg.KernelNodeAcceptPeriodMaximum elapse) else
              none
        | _ => some (.invalidPledgeUtxoCount pledge.Outputs.length)
  | _ => some (.invalidInputsCountAccept tx.Inputs.length)

/-- The checks of `validateNodeAcceptSnapshot` placed before the round check (lines 138-169)
all pass, where `input0` is `tx.Inputs[0]`, `pledging` is `node.ConsensusPledging`, `pledge` is
the transaction read from the store and `pledgeOutput0` is `pledge.Outputs[0]`. -/
def AcceptChecksBeforeRound (cm : Common) (node : Node) (s : Snapshot)
    (tx : VersionedTransaction) (input0 : Input) (pledging : ConsensusNode)
    (pledge : VersionedTransaction) (pledgeOutput0 : Output) : Prop :=
  tx.Asset = cm.XINAssetId ∧
  tx.Outputs.length = 1 ∧
  tx.Inputs = [input0] ∧
  node.ConsensusPledging = some pledging ∧
  cm.signerId pledging.Signer node.networkId = s.NodeId ∧
  pledging.Transaction = input0.Hash ∧
  node.store.ReadTransaction input0.Hash = Except.ok pledge ∧
  pledge.Outputs = [pledgeOutput0] ∧
  pledgeOutput0.Typ = cm.OutputTypeNodePledge ∧
  bytesCompare pledge.Extra tx.Extra = 0

/-- The checks of `validateNodeAcceptSnapshot` other than the epoch check (line 174) and the
accept hour check (line 186) all pass. -/
def AcceptChecksOtherThanHour (cfg : Config) (cm : Common) (node : Node) (s : Snapshot)
    (tx : VersionedTransaction) (input0 : Input) (pledging : ConsensusNode)
    (pledge : VersionedTransaction) (pledgeOutput0 : Output) : Prop :=
  AcceptChecksBeforeRound cm node s tx input0 pledging pledge pledgeOutput0 ∧
  s.RoundNumber = 0 ∧
  node.Graph.CacheRound s.NodeId = none ∧
  node.Graph.FinalRound s.NodeId = none ∧
  ¬ (addU64 s.Timestamp (mulU64 (mulU64 cfg.SnapshotRoundGap cfg.SnapshotReferenceThreshold) 2)
      < node.Graph.GraphTimestamp) ∧
  ¬ (s.Timestamp < pledging.Timestamp) ∧
  ¬ (toInt64 (subU64 s.Timestamp pledging.Timestamp) > cfg.KernelNodeAcceptPeriodMaximum)

/-- The gates of `validateNodePledgeSnapshot` placed before the call of
`node.store.AddNodeOperation` (lines 101-132) all pass, where `output0` is `tx.Outputs[0]`. -/
def PledgeGatesPass (cfg : Config) (cm : Common) (node : Node) (clock : PledgeClock)
    (s : Snapshot) (tx : VersionedTransaction) (output0 : Output) : Prop :=
  pledgeNodesCheck cfg (pledgeTimestamp node clock s) node.ConsensusNodes = none ∧
  ¬ (pledgeTimestamp node clock s >
      addU64 (toUint64 clock.now115)
        (mulU64 cfg.SnapshotRoundGap cfg.SnapshotReferenceThreshold)) ∧
  node.ConsensusPledging = none ∧
  tx.Asset = cm.XINAssetId ∧
  tx.Outputs = [output0] ∧
  tx.Extra.length = 2 * KeySize ∧
  output0.Amount.Cmp (NewInteger 10000) = 0

/-! ## Reload of the consensus nodes and finalization of an accept snapshot -/

/-- The parts of package `common` about the type of a transaction whose declarations are not
part of the sources at hand: the method `TransactionType` and the four constants that
`reloadConsensusNodesList` names (each a `uint8`). -/
structure TransactionTypes where
  TransactionType : VersionedTransaction → Nat
  TransactionTypeNodePledge : Nat
  TransactionTypeNodeAccept : Nat
  TransactionTypeNodeDepart : Nat
  TransactionTypeNodeRemove : Nat

/-- The functions of package `kernel` that the election code calls and whose declarations are
not part of the sources at hand, as parameters: the check made by `CacheRound.ValidateSnapshot`,
`CacheRound.asFinal`, the function `ComputeRoundHash`, `TopoCounter.Next` (the number issued
and the state of the counter after the call), `Node.assignNewGraphRound` (the node after the
call), the list of nodes and the pledging node that `Node.LoadConsensusNodes` reads, and the
function `LoadRoundGraph`. -/
structure Kernel where
  validSnapshot : CacheRound → Snapshot → Bool
  asFinal : CacheRound → FinalRound
  ComputeRoundHash : Hash → Nat → List Snapshot → Nat × Nat × Hash
  topoNext : Nat → Nat × Nat
  assignNewGraphRound : Node → FinalRound → CacheRound → Node
  readConsensusNodes : Node → Except StoreError (List ConsensusNode × Option ConsensusNode)
  LoadRoundGraph : Store → Hash → Hash → Except StoreError RoundGraph

/-- Modelled from the spec: the method `CacheRound.ValidateSnapshot`, whose declaration is not
part of the sources at hand. It checks that the snapshot belongs to the round; when the check
passes and `add` is set, the snapshot joins the accumulated snapshots of the round. -/
def CacheRound.ValidateSnapshot (k : Kernel) (cache : CacheRound) (s : Snapshot) (add : Bool) :
    Bool × CacheRound :=
  if k.validSnapshot cache s then
    (true, if add then { cache with Snapshots := cache.Snapshots ++ [s] } else cache)
  else (false, cache)

/-- Modelled from the spec: the method `Node.LoadConsensusNodes`, whose declaration is not part
of the sources at hand. It reloads the full validator list from storage: on success the list
of consensus nodes and the pledging node are replaced, on failure the error is returned; no
other field of the node changes. -/
def Node.LoadConsensusNodes (k : Kernel) (node : Node) : Option Err × Node :=
  match k.readConsensusNodes node with
  | .error err => (some (.store err), node)
  | .ok (nodes, pledging) =>
    (none, { node with ConsensusNodes := nodes, ConsensusPledging := pledging })

/-- A call made by `reloadConsensusNodesList`. -/
inductive ReloadCall where
  | LoadConsensusNodes
  | LoadRoundGraph
deriving DecidableEq

/-- The function `reloadConsensusNodesList`, in state-passing form: the returned error, the
node after the call and the calls made, in order. -/
def reloadConsensusNodesList (k : Kernel) (tt : TransactionTypes) (node : Node)
    (_s : Snapshot) (tx : VersionedTransaction) : Option Err × Node × List ReloadCall :=
  let txType := tt.TransactionType tx
  if txType = tt.TransactionTypeNodePledge ∨ txType = tt.TransactionTypeNodeAccept ∨
      txType = tt.TransactionTypeNodeDepart ∨ txType = tt.TransactionTypeNodeRemove then
    match node.LoadConsensusNodes k with
    | (some err, node1) => (some err, node1, [ReloadCall.LoadConsensusNodes])
    | (none, node1) =>
      match k.LoadRoundGraph node1.store node1.networkId node1.IdForNetwork with
      | .error err =>
        (some (.store err), node1, [ReloadCall.LoadConsensusNodes, ReloadCall.LoadRoundGraph])
      | .ok graph =>
        (none, { node1 with Graph := graph },
          [ReloadCall.LoadConsensusNodes, ReloadCall.LoadRoundGraph])
  else (none, node, [])

/-- The zero value of `crypto.Hash`. -/
def zeroHash : Hash := ⟨List.replicate 32 0, by simp⟩

/-- The result of a run of `finalizeNodeAcceptSnapshot`: a panic, with the writes issued to
the store before it, or a return, with the returned error, the node after the call, the
writes issued to the store and the rounds handed to `assignNewGraphRound`. -/
inductive FinalizeResult where
  | panicked (calls : List StoreCall)
  | returned (err : Option Err) (node : Node) (calls : List StoreCall)
      (final : FinalRound) (cache : CacheRound)

/-- The function `finalizeNodeAcceptSnapshot`. The snapshots read from the store are pointers,
so `rss` holds the field `Snapshot` of each of them. -/
def finalizeNodeAcceptSnapshot (cfg : Config) (k : Kernel) (node : Node) (s : Snapshot) :
    FinalizeResult :=
  let cache0 : CacheRound :=
    { NodeId := s.NodeId, Number := s.RoundNumber, Timestamp := s.Timestamp,
      References := ⟨zeroHash, zeroHash⟩, Snapshots := [] }
  match cache0.ValidateSnapshot k s true with
  | (false, _) => .panicked []
  | (true, cache) =>
    let call1 :=
      StoreCall.StartNewRound cache.NodeId cache.Number cache.References cache.Timestamp
    match node.store.StartNewRound [] cache.NodeId cache.Number cache.References
        cache.Timestamp with
    | some _ => .panicked [call1]
    | none =>
      let next := k.topoNext node.TopoCounter
      let topo : SnapshotWithTopologicalOrder := { Snapshot := s, TopologicalOrder := next.1 }
      let call2 := StoreCall.WriteSnapshot topo
      match node.store.WriteSnapshot [call1] topo with
      | some _ => .panicked [call1, call2]
      | none =>
        let final := k.asFinal cache
        let cache1 : CacheRound :=
          { NodeId := s.NodeId, Number := 1,
            Timestamp := addU64 (addU64 s.Timestamp cfg.SnapshotRoundGap) 1,
            References := ⟨zeroHash, zeroHash⟩, Snapshots := [] }
        match selectExternal s.NodeId node.genesisNodes with
        | none => .panicked [call1, call2]
        | some externalId =>
          match node.store.ReadSnapshotsForNodeRound [call1, call2] externalId 0 with
          | .error _ => .panicked [call1, call2]
          | .ok ss =>
            let rss := ss.map (fun t => t.Snapshot)
            let cache2 : CacheRound :=
              { cache1 with References :=
                  { cache1.References with External := (k.ComputeRoundHash externalId 0 rss).2.2 } }
            let cache3 : CacheRound :=
              { cache2 with References :=
                  { cache2.References with Self := (k.ComputeRoundHash s.NodeId 0 [s]).2.2 } }
            let call3 :=
              StoreCall.StartNewRound cache3.NodeId cache3.Number cache3.References
                cache3.Timestamp
            match node.store.StartNewRound [call1, call2] cache3.NodeId cache3.Number
                cache3.References cache3.Timestamp with
            | some _ => .panicked [call1, call2, call3]
            | none =>
              .returned none
                (k.assignNewGraphRound { node with TopoCounter := next.2 } final cache3)
                [call1, call2, call3] final cache3

/-- The writes issued to the store during a run of `finalizeNodeAcceptSnapshot`. -/
def FinalizeResult.calls : FinalizeResult → List StoreCall
  | .panicked calls => calls
  | .returned _ _ calls _ _ => calls

/-- The rounds started during a run: the node id and the number of each `StartNewRound`. -/
def FinalizeResult.roundsStarted (r : FinalizeResult) : List (Hash × Nat) :=
  r.calls.filterMap (fun c =>
    match c with
    | .StartNewRound nodeId number _ _ => some (nodeId, number)
    | _ => none)

/-- The cache round handed to `assignNewGraphRound`, if the run reached it. -/
def FinalizeResult.published : FinalizeResult → Option CacheRound
  | .panicked _ => none
  | .returned _ _ _ _ cache => some cache

/-- The snapshot is valid for its round and the store calls of
`finalizeNodeAcceptSnapshot` succeed, so that no panic is raised (lines 46-52, 57-60, 77-80
and 87-90); `externalId` is the selected genesis node and `ss` the snapshots read from the
store for its round 0. -/
def FinalizeCallsSucceed (cfg : Config) (k : Kernel) (node : Node) (s : Snapshot)
    (externalId : Hash) (ss : List SnapshotWithTopologicalOrder) : Prop :=
  k.validSnapshot
    { NodeId := s.NodeId, Number := s.RoundNumber, Timestamp := s.Timestamp,
      References := ⟨zeroHash, zeroHash⟩, Snapshots := [] } s = true ∧
  node.store.StartNewRound [] s.NodeId s.RoundNumber ⟨zeroHash, zeroHash⟩ s.Timestamp = none ∧
  node.store.WriteSnapshot
    [StoreCall.StartNewRound s.NodeId s.RoundNumber ⟨zeroHash, zeroHash⟩ s.Timestamp]
    ⟨s, (k.topoNext node.TopoCounter).1⟩ = none ∧
  node.store.ReadSnapshotsForNodeRound
    [StoreCall.StartNewRound s.NodeId s.RoundNumber ⟨zeroHash, zeroHash⟩ s.Timestamp,
      StoreCall.WriteSnapshot ⟨s, (k.topoNext node.TopoCounter).1⟩]
    externalId 0 = Except.ok ss ∧
  node.store.StartNewRound
    [StoreCall.StartNewRound s.NodeId s.RoundNumber ⟨zeroHash, zeroHash⟩ s.Timestamp,
      StoreCall.WriteSnapshot ⟨s, (k.topoNext node.TopoCounter).1⟩]
    s.NodeId 1
    ⟨(k.ComputeRoundHash s.NodeId 0 [s]).2.2,
      (k.ComputeRoundHash externalId 0 (ss.map (fun t => t.Snapshot))).2.2⟩
    (addU64 (addU64 s.Timestamp cfg.SnapshotRoundGap) 1) = none

/-! ## Example data

A small network used to evaluate the functions: one accepted genesis node, the node `A` that
pledges at hour 100 and is accepted at hour 121, and a node `B` that tries to pledge at hour
200 while `A` is still pledging. The epoch is hour 96. -/

/-- One hour in nanoseconds. -/
def exHour : Nat := 3600000000000

/-- Example values of the constants of package `config`: a round gap of 3 s, a reference
threshold of 10, a minimum pledge period of 12 h, a maximum accept period of 7 days, the
accept window of hours 1 to 23 and a lock threshold of 10 min. -/
def exConfig : Config where
  SnapshotRoundGap := 3000000000
  SnapshotReferenceThreshold := 10
  KernelNodePledgePeriodMinimum := 43200000000000
  KernelNodeAcceptPeriodMaximum := 604800000000000
  KernelNodeAcceptTimeBegin := 1
  KernelNodeAcceptTimeEnd := 23
  KernelNodeOperationLockThreshold := 600000000000

/-- Example values of the constants of package `common`; the id of a signer is the hash made
of the first byte of its key. -/
def exCommon : Common where
  XINAssetId := hashOfByte 1
  OutputTypeNodePledge := 163
  signerId := fun signer _ => hashOfByte (signer.PublicSpendKey.headD 0)

/-- The signer of the genesis node. -/
def exSignerG : Address := ⟨[10]⟩

/-- The signer of node `A`. -/
def exSignerA : Address := ⟨[20]⟩

/-- The pledge transaction of node `A`: 10000 units of the asset, a payload of 64 bytes `0xAA`. -/
def exPledgeTx : VersionedTransaction where
  Asset := hashOfByte 1
  Inputs := [⟨hashOfByte 40⟩]
  Outputs := [⟨163, NewInteger 10000⟩]
  Extra := List.replicate 64 170

/-- The accept transaction of node `A`: it spends the pledge, whose hash is `hashOfByte 50`,
and carries the same payload. -/
def exAcceptTx : VersionedTransaction where
  Asset := hashOfByte 1
  Inputs := [⟨hashOfByte 50⟩]
  Outputs := [⟨164, NewInteger 10000⟩]
  Extra := List.replicate 64 170

/-- An accept transaction with another payload, 64 bytes `0xBB`. -/
def exAcceptTxOtherPayload : VersionedTransaction where
  Asset := hashOfByte 1
  Inputs := [⟨hashOfByte 50⟩]
  Outputs := [⟨164, NewInteger 10000⟩]
  Extra := List.replicate 64 187

/-- A store that holds the pledge transaction under `hashOfByte 50` and one snapshot in
round 0 of the genesis node, and accepts every write. -/
def exStore : Store where
  ReadTransaction := fun h =>
    if h = hashOfByte 50 then Except.ok exPledgeTx else Except.error ⟨"not found"⟩
  AddNodeOperation := fun _ _ _ => none
  StartNewRound := fun _ _ _ _ _ => none
  WriteSnapshot := fun _ _ => none
  ReadSnapshotsForNodeRound := fun _ nodeId round =>
    if nodeId = hashOfByte 10 ∧ round = 0 then
      Except.ok [⟨⟨hashOfByte 10, 0, 0⟩, 0⟩]
    else Except.ok []

/-- A round graph without rounds, at hour 120. -/
def exGraph : RoundGraph where
  CacheRound := fun _ => none
  FinalRound := fun _ => none
  GraphTimestamp := 120 * exHour

/-- A round graph that already holds a cache round for node `A`. -/
def exGraphWithRound : RoundGraph where
  CacheRound := fun h =>
    if h = hashOfByte 20 then
      some ⟨hashOfByte 20, 1, 121 * exHour, ⟨hashOfByte 0, hashOfByte 0⟩, []⟩
    else none
  FinalRound := fun _ => none
  GraphTimestamp := 120 * exHour

/-- The genesis node, accepted at time 0. -/
def exGenesisNode : ConsensusNode := ⟨exSignerG, NodeState.Accepted, 0, hashOfByte 30⟩

/-- Node `A` while pledging, since hour 100. -/
def exPledgingA : ConsensusNode := ⟨exSignerA, NodeState.Pledging, 100 * exHour, hashOfByte 50⟩

/-- The local node before any pledge. -/
def exNodeIdle : Node where
  IdForNetwork := hashOfByte 10
  networkId := hashOfByte 0
  epoch := 96 * exHour
  Graph := exGraph
  ConsensusNodes := [exGenesisNode]
  ConsensusPledging := none
  genesisNodes := [hashOfByte 10]
  store := exStore
  TopoCounter := 0

/-- The local node while `A` is pledging. -/
def exNodePledging : Node where
  IdForNetwork := hashOfByte 10
  networkId := hashOfByte 0
  epoch := 96 * exHour
  Graph := exGraph
  ConsensusNodes := [exGenesisNode]
  ConsensusPledging := some exPledgingA
  genesisNodes := [hashOfByte 10]
  store := exStore
  TopoCounter := 0

/-- The local node while `A` is pledging, with a graph that already holds a round of `A`. -/
def exNodeWithRound : Node where
  IdForNetwork := hashOfByte 10
  networkId := hashOfByte 0
  epoch := 96 * exHour
  Graph := exGraphWithRound
  ConsensusNodes := [exGenesisNode]
  ConsensusPledging := some exPledgingA
  genesisNodes := [hashOfByte 10]
  store := exStore
  TopoCounter := 0

/-- A clock that reads `t` at every place. -/
def exClock (t : Nat) : PledgeClock := ⟨(t : Int), (t : Int), (t : Int)⟩

/-- A snapshot of node `A` (id `hashOfByte 20`) in the given round at the given time. -/
def exSnapshotA (round timestamp : Nat) : Snapshot := ⟨hashOfByte 20, round, timestamp⟩

/-- A snapshot of node `B` (id `hashOfByte 21`) in round 0 at the given time. -/
def exSnapshotB (timestamp : Nat) : Snapshot := ⟨hashOfByte 21, 0, timestamp⟩

/-- Example values of the functions of package `kernel`: a snapshot is valid for a round of
its node and number, the round hash is the node id for an empty round and a fixed hash
otherwise, the counter issues its state and moves on by one, and a published round replaces
the rounds of its node in the graph. -/
def exKernel : Kernel where
  validSnapshot := fun cache s => decide (cache.NodeId = s.NodeId ∧ cache.Number = s.RoundNumber)
  asFinal := fun cache => ⟨cache.NodeId, cache.Number, cache.Timestamp, cache.Timestamp, zeroHash⟩
  ComputeRoundHash := fun nodeId _ ss => (0, 0, if ss = [] then nodeId else hashOfByte 99)
  topoNext := fun c => (c, c + 1)
  assignNewGraphRound := fun node final cache =>
    { node with Graph :=
        { CacheRound := fun h => if h = final.NodeId then some cache else node.Graph.CacheRound h
          FinalRound := fun h => if h = final.NodeId then some final else node.Graph.FinalRound h
          GraphTimestamp := node.Graph.GraphTimestamp } }
  readConsensusNodes := fun _ => Except.ok ([exGenesisNode], some exPledgingA)
  LoadRoundGraph := fun _ _ _ => Except.ok exGraphWithRound

/-- Example values of the transaction types: the pledge and accept transactions of node `A`
have the types 1 and 2, every other transaction the type 0. -/
def exTransactionTypes : TransactionTypes where
  TransactionType := fun tx =>
    if tx = exPledgeTx then 1 else if tx = exAcceptTx then 2 else 0
  TransactionTypeNodePledge := 1
  TransactionTypeNodeAccept := 2
  TransactionTypeNodeDepart := 3
  TransactionTypeNodeRemove := 4

/-- A store like `exStore` in which `StartNewRound` fails. -/
def exStoreFailing : Store :=
  { exStore with StartNewRound := fun _ _ _ _ _ => some ⟨"round exists"⟩ }

/-- The local node while `A` is pledging, on the failing store. -/
def exNodeFailing : Node := { exNodePledging with store := exStoreFailing }

/-! ## Big-endian reading of bytes -/

/-- The bytes read as an unsigned big-endian integer, written as the sum of `b * 256 ^ k`
over the bytes `b`, with `k` the number of bytes that follow `b`. -/
def bigEndianValue : List Byte → Nat
  | [] => 0
  | b :: rest => b.val * 256 ^ rest.length + bigEndianValue rest

/-! ## Binary encoding of common.Integer -/

/-- The bytes of `n`, most significant first, without leading zero; `fuel` bounds the number
of bytes. -/
def bigIntBytesAux : Nat → Nat → List Byte
  | 0, _ => []
  | fuel + 1, n =>
    if n = 0 then [] else bigIntBytesAux fuel (n / 256) ++ [⟨n % 256, Nat.mod_lt n (by decide)⟩]

/-- The Go method `big.Int.Bytes`: the absolute value as a big-endian byte slice. -/
def bigIntBytes (x : Int) : List Byte := bigIntBytesAux x.natAbs x.natAbs

/-- The method `Integer.MarshalMsgpack`: the bytes and a nil error. -/
def Integer.MarshalMsgpack (x : Integer) : List Byte × Option Err :=
  (bigIntBytes x.i, none)

/-- The method `Integer.UnmarshalMsgpack`, in state-passing form: the receiver after the call
and a nil error. -/
def Integer.UnmarshalMsgpack (_x : Integer) (data : List Byte) : Integer × Option Err :=
  (⟨setBytes data⟩, none)

/-! ## Decimal text of common.Integer

The functions of the library `shopspring/decimal` and of `math/big` that
`NewIntegerFromString` calls, on lists of characters. -/

/-- A decimal digit, `'0'` to `'9'`. -/
def isDecimalDigit (c : Char) : Bool := decide (48 ≤ c.toNat ∧ c.toNat ≤ 57)

/-- The number written by a list of decimal digits, most significant first. -/
def digitsValue (cs : List Char) : Nat :=
  cs.foldl (fun acc c => acc * 10 + (c.toNat - 48)) 0

/-- A non-empty list of decimal digits read as a number. -/
def parseDigits (cs : List Char) : Option Nat :=
  if cs = [] then none
  else if cs.all isDecimalDigit then some (digitsValue cs) else none

/-- The Go call `new(big.Int).SetString(s, 10)`: an optional sign followed by one or more
decimal digits; `none` when the text is not of this form. -/
def bigIntSetString (cs : List Char) : Option Int :=
  match cs with
  | [] => none
  | c :: ds =>
    if c = '-' then (parseDigits ds).map (fun n => -(n : Int))
    else if c = '+' then (parseDigits ds).map (fun n => (n : Int))
    else (parseDigits (c :: ds)).map (fun n => (n : Int))

/-- The Go call `strconv.ParseInt(s, 10, 32)`. -/
def parseInt32 (cs : List Char) : Option Int :=
  match bigIntSetString cs with
  | none => none
  | some n => if -(2 : Int) ^ 31 ≤ n ∧ n ≤ (2 : Int) ^ 31 - 1 then some n else none

/-- The text before and after the first `E` or `e`, the place `strings.IndexAny(value, "Ee")`
finds; `none` when there is none. -/
def splitAtE : List Char → Option (List Char × List Char)
  | [] => none
  | c :: cs =>
    if c = 'E' ∨ c = 'e' then some ([], cs)
    else (splitAtE cs).map (fun p => (c :: p.1, p.2))

/-- The Go call `strings.Split(value, ".")`. -/
def splitDot : List Char → List (List Char)
  | [] => [[]]
  | c :: cs =>
    if c = '.' then [] :: splitDot cs
    else
      match splitDot cs with
      | [] => [[c]]
      | p :: ps => (c :: p) :: ps

/-- The type `decimal.Decimal`: the number `value * 10 ^ exp`, with `exp` an `int32`. -/
structure Decimal where
  value : Int
  exp : Int
deriving DecidableEq

/-- An error of `decimal.NewFromString`. -/
inductive DecimalError where
  | exponentNotNumeric
  | tooManyDots
  | notDecimal
  | fractionTooLong
deriving DecidableEq

/-- The end of `decimal.NewFromString`: the digits are read by `SetString` and the exponent
must fit an `int32`. -/
def Decimal.ofParts (intString : List Char) (exp : Int) : Except DecimalError Decimal :=
  match bigIntSetString intString with
  | none => .error .notDecimal
  | some dValue =>
    if exp < -(2 : Int) ^ 31 ∨ exp > (2 : Int) ^ 31 - 1 then .error .fractionTooLong
    else .ok ⟨dValue, exp⟩

/-- The function `decimal.NewFromString`: an optional exponent after `E` or `e`, at most one
point, and digits with an optional sign. -/
def Decimal.NewFromString (value : List Char) : Except DecimalError Decimal :=
  let parsed : Except DecimalError (List Char × Int) :=
    match splitAtE value with
    | none => .ok (value, 0)
    | some (mantissa, expText) =>
      match parseInt32 expText with
      | none => .error .exponentNotNumeric
      | some expInt => .ok (mantissa, expInt)
  match parsed with
  | .error err => .error err
  | .ok (mantissa, exp) =>
    match splitDot mantissa with
    | [part0] => Decimal.ofParts part0 exp
    | [part0, part1] => Decimal.ofParts (part0 ++ part1) (exp - (part1.length : Int))
    | _ => .error .tooManyDots

/-- The function `decimal.New`. -/
def Decimal.New (value : Int) (exp : Int) : Decimal := ⟨value, exp⟩

/-- The method `Decimal.Sign`. -/
def Decimal.Sign (d : Decimal) : Int := Int.sign d.value

/-- The method `Decimal.Mul`; `none` is the panic raised when the sum of the exponents does
not fit an `int32`. -/
def Decimal.Mul (d d2 : Decimal) : Option Decimal :=
  let expInt64 := d.exp + d2.exp
  if expInt64 > (2 : Int) ^ 31 - 1 ∨ expInt64 < -(2 : Int) ^ 31 then none
  else some ⟨d.value * d2.value, expInt64⟩

/-- The method `Decimal.rescale`: the same number with the exponent `exp`, truncated towards
zero when digits are dropped. -/
def Decimal.rescale (d : Decimal) (exp : Int) : Decimal :=
  let diff := (exp - d.exp).natAbs
  let expScale : Int := (10 : Int) ^ diff
  if exp > d.exp then ⟨Int.tdiv d.value expScale, exp⟩
  else if exp < d.exp then ⟨d.value * expScale, exp⟩
  else ⟨d.value, exp⟩

/-- The method `Decimal.Round`: rounding to `places` decimal places, half away from zero. -/
def Decimal.Round (d : Decimal) (places : Int) : Decimal :=
  let ret := d.rescale (-places - 1)
  let shifted := if Int.sign ret.value < 0 then ret.value - 5 else ret.value + 5
  let q := shifted / 10
  let m := shifted % 10
  let value := if Int.sign q < 0 ∧ m ≠ 0 then q + 1 else q
  ⟨value, ret.exp + 1⟩

/-- The call `d.StringFixed(0)`: the number is rounded to 0 places, after which its exponent
is 0 and its text is the text of its value, `big.Int.String`. -/
def Decimal.StringFixed0 (d : Decimal) : String :=
  toString ((d.Round 0).rescale 0).value

/-- An error returned by `NewIntegerFromString` or `UnmarshalJSON`. -/
inductive IntegerError where
  | decimal (err : DecimalError)
  | invalid (x : String)
  | unquote (text : String)
deriving DecidableEq

/-- The result of a call: a value, an error, or a panic. -/
inductive Outcome (α : Type) where
  | ok (v : α)
  | error (err : IntegerError)
  | panic
deriving DecidableEq

/-- The function `NewIntegerFromString`. The text `s` is always the text of an integer, so
`SetString` succeeds; the zero value stands for its result on a failure. -/
def NewIntegerFromString (x : String) : Outcome Integer :=
  match Decimal.NewFromString x.data with
  | .error err => .error (.decimal err)
  | .ok d =>
    if d.Sign ≤ 0 then .error (.invalid x)
    else
      match d.Mul (Decimal.New 1 (Precision : Int)) with
      | none => .panic
      | some scaled =>
        let s := scaled.StringFixed0
        match bigIntSetString s.data with
        | some i => .ok ⟨i⟩
        | none => .ok ⟨0⟩

/-- The method `Integer.Sign`, that is `big.Int.Sign`. -/
def Integer.Sign (x : Integer) : Int := Int.sign x.i

/-- A Go `string`. -/
abbrev Text := String

/-- The functions `strconv.Quote` and `strconv.Unquote`, as parameters. -/
structure Strconv where
  Quote : String → String
  Unquote : String → Except String String

/-- The method `Integer.MarshalJSON`: the quoted text and a nil error. -/
def Integer.MarshalJSON (sc : Strconv) (x : Integer) : Text × Option IntegerError :=
  let s := x.String
  (sc.Quote s, none)

/-- The method `Integer.UnmarshalJSON`, in state-passing form: the receiver after a
successful call, or the error. -/
def Integer.UnmarshalJSON (sc : Strconv) (_x : Integer) (b : Text) : Outcome Integer :=
  match sc.Unquote b with
  | .error text => .error (.unquote text)
  | .ok unquoted =>
    match NewIntegerFromString unquoted with
    | .error err => .error err
    | .panic => .panic
    | .ok i => .ok ⟨setBytes (bigIntBytes i.i)⟩

/-- A simple pair of quoting functions: the text between double quotes. -/
def exStrconv : Strconv where
  Quote := fun s => "\"" ++ s ++ "\""
  Unquote := fun t =>
    match t.data with
    | '"' :: rest =>
      if rest.getLast? = some '"' then Except.ok (String.mk rest.dropLast)
      else Except.error "invalid syntax"
    | _ => Except.error "invalid syntax"

/-! ## Frame of the validation functions -/

/-- An error made by `fmt.Errorf` in the validation functions, as opposed to an error handed
back by the store. -/
def Err.isValidation : Err → Bool
  | .store _ => false
  | _ => true

/-- The method `validateNodeAcceptSnapshot` in state-passing form. Its receiver is the pointer
`node *Node`; the body assigns to no field of the node and calls the store only through
`ReadTransaction`, so the node after the call is the node before it and the list of writes
issued to the store is empty. -/
def validateNodeAcceptSnapshotRun (cfg : Config) (cm : Common) (node : Node)
    (s : Snapshot) (tx : VersionedTransaction) : Option Err × Node × List StoreCall :=
  (validateNodeAcceptSnapshot cfg cm node s tx, node, [])

/-! ## The closest candidates -/

/-- The candidates of the list that attain the least `nodeDistance` to the target, in the
order of the list. -/
def closestCandidates (target : Hash) (candidates : List Hash) : List Hash :=
  candidates.filter
    (fun c => decide (∀ c' ∈ candidates, nodeDistance target c ≤ nodeDistance target c'))

/-! ## The selection loop: invariant -/

/-- The loop invariant: after the candidates `pre` have been visited, the state holds the
first candidate of `pre` with the least distance. -/
def SelInv (target : Hash) (pre : List Hash) (st : Hash × Int) : Prop :=
  st.2 = nodeDistance target st.1 ∧
  ∃ i : Nat, pre[i]? = some st.1 ∧
    (∀ (j : Nat) (c : Hash), pre[j]? = some c → st.2 ≤ nodeDistance target c) ∧
    (∀ (j : Nat) (c : Hash), j < i → pre[j]? = some c → st.2 < nodeDistance target c)

/-! ## Theorems: the selection loop -/

theorem selInv_step (target : Hash) (pre : List Hash) (st : Hash × Int) (x : Hash)
    (h : SelInv target pre st) : SelInv target (pre ++ [x]) (selectStep target st x) := by
  obtain ⟨hd, i, hi, hmin, hlt⟩ := h
  have hilt : i < pre.length := by
    by_contra hc
    rw [List.getElem?_eq_none (by omega)] at hi
    exact absurd hi (by simp)
  have key : ∀ (j : Nat) (c : Hash), (pre ++ [x])[j]? = some c →
      (j < pre.length ∧ pre[j]? = some c) ∨ (j = pre.length ∧ c = x) := by
    intro j c hj
    by_cases hjl : j < pre.length
    · left
      rw [List.getElem?_append_left hjl] at hj
      exact ⟨hjl, hj⟩
    · right
      have hge : pre.length ≤ j := by omega
      rw [List.getElem?_append_right hge] at hj
      by_cases hj0 : j - pre.length = 0
      · rw [hj0] at hj
        simp at hj
        exact ⟨by omega, hj.symm⟩
      · obtain ⟨k, hk⟩ := Nat.exists_eq_succ_of_ne_zero hj0
        rw [hk] at hj
        simp at hj
  unfold selectStep
  by_cases hnd : nodeDistance target x < st.2
  · simp only [hnd, if_true]
    refine ⟨rfl, pre.length, by simp, ?_, ?_⟩
    · intro j c hj
      rcases key j c hj with ⟨_, hj2⟩ | ⟨_, hc⟩
      · exact le_trans (le_of_lt hnd) (hmin j c hj2)
      · rw [hc]
    · intro j c hjl hj
      rcases key j c hj with ⟨_, hj2⟩ | ⟨hj1, _⟩
      · exact lt_of_lt_of_le hnd (hmin j c hj2)
      · omega
  · simp only [hnd, if_false]
    refine ⟨hd, i, ?_, ?_, ?_⟩
    · rw [List.getElem?_append_left hilt]
      exact hi
    · intro j c hj
      rcases key j c hj with ⟨_, hj2⟩ | ⟨_, hc⟩
      · exact hmin j c hj2
      · rw [hc]
        exact not_lt.mp hnd
    · intro j c hjl hj
      rcases key j c hj with ⟨_, hj2⟩ | ⟨hj1, _⟩
      · exact hlt j c hjl hj2
      · omega

theorem selInv_foldl (target : Hash) (rest : List Hash) :
    ∀ (pre : List Hash) (st : Hash × Int), SelInv target pre st →
      SelInv target (pre ++ rest) (rest.foldl (selectStep target) st) := by
  induction rest with
  | nil => intro pre st h; simpa using h
  | cons x xs ih =>
    intro pre st h
    have h2 := ih (pre ++ [x]) (selectStep target st x) (selInv_step target pre st x h)
    simpa using h2

theorem selectStep_self (target g0 : Hash) :
    selectStep target (g0, nodeDistance target g0) g0 = (g0, nodeDistance target g0) := by
  simp [selectStep]

theorem selInv_init (target g0 : Hash) :
    SelInv target [g0] (g0, nodeDistance target g0) := by
  refine ⟨rfl, 0, by simp, ?_, ?_⟩
  · intro j c hj
    cases j with
    | zero => simp at hj; rw [hj]
    | succ k => simp at hj
  · intro j c hj
    omega

/-- The state the loop ends in satisfies the invariant for the whole list. -/
theorem selInv_final (target g0 : Hash) (rest : List Hash) :
    SelInv target (g0 :: rest)
      ((g0 :: rest).foldl (selectStep target) (g0, nodeDistance target g0)) := by
  have h := selInv_foldl target rest [g0] (g0, nodeDistance target g0) (selInv_init target g0)
  rw [List.foldl_cons, selectStep_self]
  simpa using h

/-- C1: for every target and every non-empty genesis list, the external id chosen by the
selection loop of `finalizeNodeAcceptSnapshot` is an element of the list, and its
`nodeDistance` to the target is at most that of every candidate of the list. -/
theorem selectExternal_mem_least (target : Hash) (genesisNodes : List Hash)
    (hne : genesisNodes ≠ []) :
    ∃ e, selectExternal target genesisNodes = some e ∧ e ∈ genesisNodes ∧
      ∀ c ∈ genesisNodes, nodeDistance target e ≤ nodeDistance target c := by
  cases genesisNodes with
  | nil => exact absurd rfl hne
  | cons g0 rest =>
    obtain ⟨hd, i, hi, hmin, _⟩ := selInv_final target g0 rest
    refine ⟨_, rfl, ?_, ?_⟩
    · exact List.getElem?_mem hi
    · intro c hc
      obtain ⟨j, hj⟩ := List.getElem?_of_mem hc
      rw [← hd]
      exact hmin j c hj

/-- Witness of C1: three genesis nodes at distances 4, 2 and 2 from the target. -/
theorem selectExternal_mem_least_witness :
    [hashOfByte 9, hashOfByte 3, hashOfByte 7] ≠ [] ∧
    ∃ e, selectExternal (hashOfByte 5) [hashOfByte 9, hashOfByte 3, hashOfByte 7] = some e ∧
      e ∈ [hashOfByte 9, hashOfByte 3, hashOfByte 7] ∧
      ∀ c ∈ [hashOfByte 9, hashOfByte 3, hashOfByte 7],
        nodeDistance (hashOfByte 5) e ≤ nodeDistance (hashOfByte 5) c :=
  ⟨by decide, selectExternal_mem_least _ _ (by decide)⟩

/-- C2: the selected external id is the candidate at the smallest index among those with the
least `nodeDistance` to the target: it sits at some index `i`, no candidate is closer, every
candidate before `i` is strictly farther, and a step of the loop changes the current choice
only for a candidate strictly closer than the current distance. -/
theorem selectExternal_first_least (target : Hash) (genesisNodes : List Hash)
    (hne : genesisNodes ≠ []) :
    (∃ (e : Hash) (i : Nat), selectExternal target genesisNodes = some e ∧
      genesisNodes[i]? = some e ∧
      (∀ (j : Nat) (c : Hash), genesisNodes[j]? = some c →
        nodeDistance target e ≤ nodeDistance target c) ∧
      (∀ (j : Nat) (c : Hash), j < i → genesisNodes[j]? = some c →
        nodeDistance target e < nodeDistance target c)) ∧
    (∀ (st : Hash × Int) (id : Hash), selectStep target st id ≠ st →
      selectStep target st id = (id, nodeDistance target id) ∧ nodeDistance target id < st.2) := by
  constructor
  · cases genesisNodes with
    | nil => exact absurd rfl hne
    | cons g0 rest =>
      obtain ⟨hd, i, hi, hmin, hlt⟩ := selInv_final target g0 rest
      refine ⟨_, i, rfl, hi, ?_, ?_⟩
      · intro j c hj
        rw [← hd]
        exact hmin j c hj
      · intro j c hji hj
        rw [← hd]
        exact hlt j c hji hj
  · intro st id hch
    unfold selectStep at hch ⊢
    by_cases hnd : nodeDistance target id < st.2
    · simp [hnd]
    · simp [hnd] at hch

/-- Witness of C2: the candidates at indices 1 and 2 tie at distance 2; index 1 is chosen. -/
theorem selectExternal_first_least_witness :
    selectExternal (hashOfByte 5) [hashOfByte 9, hashOfByte 3, hashOfByte 7]
      = some (hashOfByte 3) ∧
    nodeDistance (hashOfByte 5) (hashOfByte 7) = nodeDistance (hashOfByte 5) (hashOfByte 3) ∧
    ((∃ (e : Hash) (i : Nat),
      selectExternal (hashOfByte 5) [hashOfByte 9, hashOfByte 3, hashOfByte 7] = some e ∧
      [hashOfByte 9, hashOfByte 3, hashOfByte 7][i]? = some e ∧
      (∀ (j : Nat) (c : Hash), [hashOfByte 9, hashOfByte 3, hashOfByte 7][j]? = some c →
        nodeDistance (hashOfByte 5) e ≤ nodeDistance (hashOfByte 5) c) ∧
      (∀ (j : Nat) (c : Hash), j < i → [hashOfByte 9, hashOfByte 3, hashOfByte 7][j]? = some c →
        nodeDistance (hashOfByte 5) e < nodeDistance (hashOfByte 5) c)) ∧
    (∀ (st : Hash × Int) (id : Hash), selectStep (hashOfByte 5) st id ≠ st →
      selectStep (hashOfByte 5) st id = (id, nodeDistance (hashOfByte 5) id) ∧
        nodeDistance (hashOfByte 5) id < st.2)) :=
  ⟨by decide, by decide, selectExternal_first_least _ _ (by decide)⟩

/-! ## Theorems: accept validation -/

theorem bytesCompare_eq_zero_iff : ∀ (a b : List Byte), bytesCompare a b = 0 ↔ a = b := by
  intro a
  induction a with
  | nil =>
    intro b
    cases b <;> simp [bytesCompare]
  | cons x xs ih =>
    intro b
    cases b with
    | nil => simp [bytesCompare]
    | cons y ys =>
      simp only [bytesCompare]
      by_cases h1 : x.val < y.val
      · simp only [h1, if_true]
        constructor
        · intro h; simp at h
        · intro h
          injection h with hxy _
          rw [hxy] at h1
          exact absurd h1 (lt_irrefl _)
      · by_cases h2 : y.val < x.val
        · simp only [h1, h2, if_true, if_false]
          constructor
          · intro h; simp at h
          · intro h
            injection h with hxy _
            rw [hxy] at h2
            exact absurd h2 (lt_irrefl _)
        · simp only [h1, h2, if_false]
          have hxy : x = y := Fin.ext (by omega)
          rw [ih ys, hxy]
          simp

/-- Characterisation of success of `validateNodeAcceptSnapshot`: it returns nil exactly when
every check passes. -/
theorem validateNodeAcceptSnapshot_eq_none_iff (cfg : Config) (cm : Common) (node : Node)
    (s : Snapshot) (tx : VersionedTransaction) :
    validateNodeAcceptSnapshot cfg cm node s tx = none ↔
      ∃ input0 pledging pledge pledgeOutput0,
        AcceptChecksOtherThanHour cfg cm node s tx input0 pledging pledge pledgeOutput0 ∧
        ¬ (s.Timestamp < node.epoch) ∧
        cfg.KernelNodeAcceptTimeBegin ≤ acceptHour node.epoch s.Timestamp ∧
        acceptHour node.epoch s.Timestamp ≤ cfg.KernelNodeAcceptTimeEnd := by
  unfold validateNodeAcceptSnapshot AcceptChecksOtherThanHour AcceptChecksBeforeRound
  constructor
  · intro h
    by_cases c1 : tx.Asset ≠ cm.XINAssetId
    · rw [if_pos c1] at h; cases h
    rw [if_neg c1] at h
    by_cases c2 : tx.Outputs.length ≠ 1
    · rw [if_pos c2] at h; cases h
    rw [if_neg c2] at h
    rcases hI : tx.Inputs with _ | ⟨input0, _ | ⟨i1, rest⟩⟩
    · simp only [hI] at h; cases h
    swap
    · simp only [hI] at h; cases h
    simp only [hI] at h
    rcases hP : node.ConsensusPledging with _ | pledging
    · simp only [hP] at h; cases h
    simp only [hP] at h
    by_cases c3 : cm.signerId pledging.Signer node.networkId ≠ s.NodeId
    · rw [if_pos c3] at h; cases h
    rw [if_neg c3] at h
    by_cases c4 : pledging.Transaction ≠ input0.Hash
    · rw [if_pos c4] at h; cases h
    rw [if_neg c4] at h
    rcases hR : node.store.ReadTransaction input0.Hash with e | pledge
    · simp only [hR] at h; cases h
    simp only [hR] at h
    rcases hO : pledge.Outputs with _ | ⟨pledgeOutput0, _ | ⟨o1, rest⟩⟩
    · simp only [hO] at h; cases h
    swap
    · simp only [hO] at h; cases h
    simp only [hO] at h
    by_cases c5 : pledgeOutput0.Typ ≠ cm.OutputTypeNodePledge
    · rw [if_pos c5] at h; cases h
    rw [if_neg c5] at h
    by_cases c6 : bytesCompare pledge.Extra tx.Extra ≠ 0
    · rw [if_pos c6] at h; cases h
    rw [if_neg c6] at h
    by_cases c7 : s.RoundNumber ≠ 0
    · rw [if_pos c7] at h; cases h
    rw [if_neg c7] at h
    by_cases c8 : s.Timestamp < node.epoch
    · rw [if_pos c8] at h; cases h
    rw [if_neg c8] at h
    rcases hC : node.Graph.CacheRound s.NodeId with _ | r
    swap
    · simp only [hC] at h; cases h
    simp only [hC] at h
    rcases hF : node.Graph.FinalRound s.NodeId with _ | r
    swap
    · simp only [hF] at h; cases h
    simp only [hF] at h
    by_cases c9 : acceptHour node.epoch s.Timestamp < cfg.KernelNodeAcceptTimeBegin ∨
        acceptHour node.epoch s.Timestamp > cfg.KernelNodeAcceptTimeEnd
    · rw [if_pos c9] at h; cases h
    rw [if_neg c9] at h
    by_cases c10 : addU64 s.Timestamp
        (mulU64 (mulU64 cfg.SnapshotRoundGap cfg.SnapshotReferenceThreshold) 2)
          < node.Graph.GraphTimestamp
    · rw [if_pos c10] at h; cases h
    rw [if_neg c10] at h
    by_cases c11 : s.Timestamp < pledging.Timestamp
    · rw [if_pos c11] at h; cases h
    rw [if_neg c11] at h
    by_cases c12 : toInt64 (subU64 s.Timestamp pledging.Timestamp)
        > cfg.KernelNodeAcceptPeriodMaximum
    · rw [if_pos c12] at h; cases h
    refine ⟨input0, pledging, pledge, pledgeOutput0,
      ⟨⟨not_not.mp c1, not_not.mp c2, ?_, ?_, not_not.mp c3, not_not.mp c4, ?_, ?_,
        not_not.mp c5, not_not.mp c6⟩, not_not.mp c7, ?_, ?_, c10, c11, c12⟩, c8, ?_, ?_⟩
    · rfl
    · rfl
    · exact hR
    · exact hO
    · rfl
    · rfl
    · exact not_lt.mp (fun hh => c9 (Or.inl hh))
    · exact not_lt.mp (fun hh => c9 (Or.inr hh))
  · rintro ⟨input0, pledging, pledge, pledgeOutput0,
      ⟨⟨h1, h2, h3, h4, h5, h6, h7, h8, h9, h10⟩, h11, h12, h13, h14, h15, h16⟩, h17, h18, h19⟩
    simp [h1, h2, h3, h4, h5, h6, h7, h8, h9, h10, h11, h12, h13, h14, h15, h16, h17, h18, h19]

/-! ## Theorems: pledge validation -/

theorem toInt64_subU64_le (a b : Nat) (m : Int) (hba : b ≤ a)
    (h : m ≤ toInt64 (subU64 a b)) : (b : Int) + m ≤ (a : Int) ∧ b + m.toNat ≤ a := by
  unfold toInt64 subU64 at h
  norm_num at h
  split_ifs at h <;> omega

theorem pledgeNodesCheck_eq_none (cfg : Config) (timestamp : Nat) :
    ∀ nodes : List ConsensusNode, pledgeNodesCheck cfg timestamp nodes = none →
      ∀ cn ∈ nodes, ¬ (timestamp < cn.Timestamp) ∧
        ¬ (toInt64 (subU64 timestamp cn.Timestamp) < cfg.KernelNodePledgePeriodMinimum) ∧
        cn.State = NodeState.Accepted := by
  intro nodes
  induction nodes with
  | nil => intro _ cn hcn; simp at hcn
  | cons x xs ih =>
    intro h cn hcn
    unfold pledgeNodesCheck at h
    by_cases c1 : timestamp < x.Timestamp
    · rw [if_pos c1] at h; cases h
    rw [if_neg c1] at h
    by_cases c2 : toInt64 (subU64 timestamp x.Timestamp) < cfg.KernelNodePledgePeriodMinimum
    · simp only [c2, if_true] at h; cases h
    simp only [c2, if_false] at h
    by_cases c3 : x.State ≠ NodeState.Accepted
    · rw [if_pos c3] at h; cases h
    rw [if_neg c3] at h
    rcases List.mem_cons.mp hcn with hx | hx
    · rw [hx]
      exact ⟨c1, c2, not_not.mp c3⟩
    · exact ih h cn hx

/-- Characterisation of the runs of `validateNodePledgeSnapshot` that reach
`node.store.AddNodeOperation`: they are the runs on which every gate passes, and then the
call is made once, with the pledge timestamp. -/
theorem validateNodePledgeSnapshot_calls (cfg : Config) (cm : Common) (node : Node)
    (clock : PledgeClock) (s : Snapshot) (tx : VersionedTransaction) :
    ((∃ output0, PledgeGatesPass cfg cm node clock s tx output0) ∧
      validateNodePledgeSnapshot cfg cm node clock s tx =
        ((node.store.AddNodeOperation tx (pledgeTimestamp node clock s)
            (toUint64 cfg.KernelNodeOperationLockThreshold)).map Err.store,
          [StoreCall.AddNodeOperation tx (pledgeTimestamp node clock s)
            (toUint64 cfg.KernelNodeOperationLockThreshold)])) ∨
    ((¬ ∃ output0, PledgeGatesPass cfg cm node clock s tx output0) ∧
      (validateNodePledgeSnapshot cfg cm node clock s tx).1 ≠ none ∧
      (validateNodePledgeSnapshot cfg cm node clock s tx).2 = []) := by
  unfold validateNodePledgeSnapshot PledgeGatesPass
  rcases hL : pledgeNodesCheck cfg (pledgeTimestamp node clock s) node.ConsensusNodes
    with _ | e
  swap
  · right; simp [hL]
  by_cases c1 : pledgeTimestamp node clock s >
      addU64 (toUint64 clock.now115) (mulU64 cfg.SnapshotRoundGap cfg.SnapshotReferenceThreshold)
  · right; simp [hL, c1]
  rcases hP : node.ConsensusPledging with _ | cn
  swap
  · right; simp [hL, c1, hP]
  by_cases c2 : tx.Asset ≠ cm.XINAssetId
  · right; simp [hL, c1, hP, c2]
  rcases hO : tx.Outputs with _ | ⟨output0, _ | ⟨o1, rest⟩⟩
  · right; simp [hL, c1, hP, c2, hO]
  swap
  · right; simp [hL, c1, hP, c2, hO]
  by_cases c3 : tx.Extra.length ≠ 2 * KeySize
  · right; simp [hL, c1, hP, c2, hO, c3]
  by_cases c4 : output0.Amount.Cmp (NewInteger 10000) ≠ 0
  · right; simp [hL, c1, hP, c2, hO, c3, c4]
  left
  simp only [not_not] at c2 c3 c4
  simp [hL, c1, hP, c2, hO, c3, c4]

/-! ## Claims on pledge validation -/

/-- C3: if the node already has a pledging node, `validateNodePledgeSnapshot` returns an error
and issues no `AddNodeOperation` to the store; when the checks placed before the pledging
check pass (the loop over the consensus nodes and the bound on the timestamp), the error is
the "invalid node state" error of the pledging node. -/
theorem pledge_rejected_while_pledging (cfg : Config) (cm : Common) (node : Node)
    (clock : PledgeClock) (s : Snapshot) (tx : VersionedTransaction) (cn : ConsensusNode)
    (hp : node.ConsensusPledging = some cn) :
    (validateNodePledgeSnapshot cfg cm node clock s tx).1 ≠ none ∧
    (validateNodePledgeSnapshot cfg cm node clock s tx).2 = [] ∧
    (pledgeNodesCheck cfg (pledgeTimestamp node clock s) node.ConsensusNodes = none →
      ¬ (pledgeTimestamp node clock s >
          addU64 (toUint64 clock.now115)
            (mulU64 cfg.SnapshotRoundGap cfg.SnapshotReferenceThreshold)) →
      (validateNodePledgeSnapshot cfg cm node clock s tx).1 =
        some (Err.invalidNodeState cn.Signer cn.State)) ∧
    (∀ sx : Stringers, (Err.invalidNodeState cn.Signer cn.State).Error sx =
      "invalid node state " ++ sx.address cn.Signer ++ " " ++ sx.state cn.State) := by
  refine ⟨?_, ?_, ?_, fun _ => rfl⟩
  · rcases validateNodePledgeSnapshot_calls cfg cm node clock s tx with ⟨⟨o, ho⟩, _⟩ | ⟨_, h, _⟩
    · have hnone := ho.2.2.1
      rw [hp] at hnone
      cases hnone
    · exact h
  · rcases validateNodePledgeSnapshot_calls cfg cm node clock s tx with ⟨⟨o, ho⟩, _⟩ | ⟨_, _, h⟩
    · have hnone := ho.2.2.1
      rw [hp] at hnone
      cases hnone
    · exact h
  · intro hL hT
    unfold validateNodePledgeSnapshot
    simp [hL, hT, hp]

/-- Witness of C3: node `A` pledged at hour 100 and is still pledging; the pledge of node `B`
at hour 200 is rejected with "invalid node state". -/
theorem pledge_rejected_while_pledging_witness :
    validateNodePledgeSnapshot exConfig exCommon exNodePledging (exClock (200 * exHour))
        (exSnapshotB (200 * exHour)) exPledgeTx =
      (some (Err.invalidNodeState exSignerA NodeState.Pledging), []) ∧
    exNodePledging.ConsensusPledging = some exPledgingA ∧
    ((validateNodePledgeSnapshot exConfig exCommon exNodePledging (exClock (200 * exHour))
        (exSnapshotB (200 * exHour)) exPledgeTx).1 ≠ none ∧
    (validateNodePledgeSnapshot exConfig exCommon exNodePledging (exClock (200 * exHour))
        (exSnapshotB (200 * exHour)) exPledgeTx).2 = [] ∧
    (pledgeNodesCheck exConfig
        (pledgeTimestamp exNodePledging (exClock (200 * exHour)) (exSnapshotB (200 * exHour)))
        exNodePledging.ConsensusNodes = none →
      ¬ (pledgeTimestamp exNodePledging (exClock (200 * exHour)) (exSnapshotB (200 * exHour)) >
          addU64 (toUint64 (exClock (200 * exHour)).now115)
            (mulU64 exConfig.SnapshotRoundGap exConfig.SnapshotReferenceThreshold)) →
      (validateNodePledgeSnapshot exConfig exCommon exNodePledging (exClock (200 * exHour))
        (exSnapshotB (200 * exHour)) exPledgeTx).1 =
        some (Err.invalidNodeState exPledgingA.Signer exPledgingA.State)) ∧
    (∀ sx : Stringers, (Err.invalidNodeState exPledgingA.Signer exPledgingA.State).Error sx =
      "invalid node state " ++ sx.address exPledgingA.Signer ++ " " ++
        sx.state exPledgingA.State)) :=
  ⟨by decide, rfl,
    pledge_rejected_while_pledging exConfig exCommon exNodePledging (exClock (200 * exHour))
      (exSnapshotB (200 * exHour)) exPledgeTx exPledgingA rfl⟩

/-- C5: when `validateNodePledgeSnapshot` reaches `AddNodeOperation`, the call carries the
pledge timestamp (the snapshot timestamp, unless that is 0 on a snapshot of the local node),
and every node `cn` of `ConsensusNodes` has `cn.Timestamp ≤ timestamp` (the unsigned
subtraction does not underflow) and `cn.Timestamp + KernelNodePledgePeriodMinimum ≤ timestamp`,
over the integers and over the natural numbers. -/
theorem pledge_period_respected (cfg : Config) (cm : Common) (node : Node)
    (clock : PledgeClock) (s : Snapshot) (tx : VersionedTransaction)
    (h : (validateNodePledgeSnapshot cfg cm node clock s tx).2 ≠ []) :
    (validateNodePledgeSnapshot cfg cm node clock s tx).2 =
      [StoreCall.AddNodeOperation tx (pledgeTimestamp node clock s)
        (toUint64 cfg.KernelNodeOperationLockThreshold)] ∧
    (¬ (s.Timestamp = 0 ∧ s.NodeId = node.IdForNetwork) →
      pledgeTimestamp node clock s = s.Timestamp) ∧
    ∀ cn ∈ node.ConsensusNodes,
      cn.Timestamp ≤ pledgeTimestamp node clock s ∧
      (cn.Timestamp : Int) + cfg.KernelNodePledgePeriodMinimum
        ≤ (pledgeTimestamp node clock s : Int) ∧
      cn.Timestamp + cfg.KernelNodePledgePeriodMinimum.toNat ≤ pledgeTimestamp node clock s := by
  rcases validateNodePledgeSnapshot_calls cfg cm node clock s tx with ⟨⟨o, ho⟩, heq⟩ | ⟨_, _, hnil⟩
  · refine ⟨by rw [heq], ?_, ?_⟩
    · intro hc
      unfold pledgeTimestamp
      rw [if_neg hc]
    · intro cn hcn
      obtain ⟨h1, h2, _⟩ := pledgeNodesCheck_eq_none cfg _ _ ho.1 cn hcn
      have hle : cn.Timestamp ≤ pledgeTimestamp node clock s := not_lt.mp h1
      have := toInt64_subU64_le _ _ _ hle (not_lt.mp h2)
      exact ⟨hle, this.1, this.2⟩
  · exact absurd hnil h

/-- Witness of C5: the pledge of node `A` at hour 100, with the genesis node accepted at
time 0, reaches `AddNodeOperation`. -/
theorem pledge_period_respected_witness :
    (validateNodePledgeSnapshot exConfig exCommon exNodeIdle (exClock (100 * exHour))
        (exSnapshotA 0 (100 * exHour)) exPledgeTx).2 ≠ [] ∧
    ((validateNodePledgeSnapshot exConfig exCommon exNodeIdle (exClock (100 * exHour))
        (exSnapshotA 0 (100 * exHour)) exPledgeTx).2 =
      [StoreCall.AddNodeOperation exPledgeTx
        (pledgeTimestamp exNodeIdle (exClock (100 * exHour)) (exSnapshotA 0 (100 * exHour)))
        (toUint64 exConfig.KernelNodeOperationLockThreshold)] ∧
    (¬ ((exSnapshotA 0 (100 * exHour)).Timestamp = 0 ∧
        (exSnapshotA 0 (100 * exHour)).NodeId = exNodeIdle.IdForNetwork) →
      pledgeTimestamp exNodeIdle (exClock (100 * exHour)) (exSnapshotA 0 (100 * exHour)) =
        (exSnapshotA 0 (100 * exHour)).Timestamp) ∧
    ∀ cn ∈ exNodeIdle.ConsensusNodes,
      cn.Timestamp ≤
        pledgeTimestamp exNodeIdle (exClock (100 * exHour)) (exSnapshotA 0 (100 * exHour)) ∧
      (cn.Timestamp : Int) + exConfig.KernelNodePledgePeriodMinimum
        ≤ (pledgeTimestamp exNodeIdle (exClock (100 * exHour))
            (exSnapshotA 0 (100 * exHour)) : Int) ∧
      cn.Timestamp + exConfig.KernelNodePledgePeriodMinimum.toNat ≤
        pledgeTimestamp exNodeIdle (exClock (100 * exHour)) (exSnapshotA 0 (100 * exHour))) :=
  ⟨by decide,
    pledge_period_respected exConfig exCommon exNodeIdle (exClock (100 * exHour))
      (exSnapshotA 0 (100 * exHour)) exPledgeTx (by decide)⟩

/-! ## Claims on accept validation -/

/-- C6: if the payload (`Extra`) of the pledge transaction read from the store at
`tx.Inputs[0].Hash` differs from the payload of the accept transaction, in a byte or in
length, `validateNodeAcceptSnapshot` returns an error. -/
theorem accept_rejects_payload_mismatch (cfg : Config) (cm : Common) (node : Node)
    (s : Snapshot) (tx : VersionedTransaction) (input0 : Input) (pledge : VersionedTransaction)
    (hin : tx.Inputs.head? = some input0)
    (hread : node.store.ReadTransaction input0.Hash = Except.ok pledge)
    (hne : pledge.Extra ≠ tx.Extra) :
    validateNodeAcceptSnapshot cfg cm node s tx ≠ none := by
  intro hnone
  obtain ⟨i0, pl, pt, po, ⟨⟨_, _, hI, _, _, _, hR, _, _, hB⟩, _⟩, _⟩ :=
    (validateNodeAcceptSnapshot_eq_none_iff cfg cm node s tx).mp hnone
  rw [hI] at hin
  simp only [List.head?_cons, Option.some.injEq] at hin
  rw [hin, hread] at hR
  injection hR with hpt
  rw [← hpt] at hB
  exact hne ((bytesCompare_eq_zero_iff _ _).mp hB)

/-- Witness of C6: the pledge carries 64 bytes `0xAA`, the accept transaction 64 bytes `0xBB`. -/
theorem accept_rejects_payload_mismatch_witness :
    validateNodeAcceptSnapshot exConfig exCommon exNodePledging
        (exSnapshotA 0 (121 * exHour)) exAcceptTxOtherPayload =
      some (Err.invalidPledgeAndAcceptKey (List.replicate 64 170) (List.replicate 64 187)) ∧
    exAcceptTxOtherPayload.Inputs.head? = some ⟨hashOfByte 50⟩ ∧
    exNodePledging.store.ReadTransaction (Input.mk (hashOfByte 50)).Hash = Except.ok exPledgeTx ∧
    exPledgeTx.Extra ≠ exAcceptTxOtherPayload.Extra ∧
    validateNodeAcceptSnapshot exConfig exCommon exNodePledging
      (exSnapshotA 0 (121 * exHour)) exAcceptTxOtherPayload ≠ none :=
  ⟨by decide, rfl, rfl, by decide,
    accept_rejects_payload_mismatch exConfig exCommon exNodePledging
      (exSnapshotA 0 (121 * exHour)) exAcceptTxOtherPayload ⟨hashOfByte 50⟩ exPledgeTx
      rfl rfl (by decide)⟩

/-- C7: an accept snapshot whose `RoundNumber` is not 0 makes `validateNodeAcceptSnapshot`
return an error; when the checks placed before the round check pass, the error is
"invalid snapshot round N" with `N` the round number, and for round 1 the text is
"invalid snapshot round 1". -/
theorem accept_rejects_nonzero_round (cfg : Config) (cm : Common) (node : Node)
    (s : Snapshot) (tx : VersionedTransaction) (hround : s.RoundNumber ≠ 0) :
    validateNodeAcceptSnapshot cfg cm node s tx ≠ none ∧
    (∀ input0 pledging pledge pledgeOutput0,
      AcceptChecksBeforeRound cm node s tx input0 pledging pledge pledgeOutput0 →
      validateNodeAcceptSnapshot cfg cm node s tx = some (Err.invalidSnapshotRound s.RoundNumber)) ∧
    (∀ sx : Stringers, (Err.invalidSnapshotRound s.RoundNumber).Error sx =
      "invalid snapshot round " ++ toString s.RoundNumber) ∧
    (s.RoundNumber = 1 → ∀ sx : Stringers,
      (Err.invalidSnapshotRound s.RoundNumber).Error sx = "invalid snapshot round 1") := by
  refine ⟨?_, ?_, fun _ => rfl, ?_⟩
  · intro hnone
    obtain ⟨i0, pl, pt, po, ⟨_, h0, _⟩, _⟩ :=
      (validateNodeAcceptSnapshot_eq_none_iff cfg cm node s tx).mp hnone
    exact hround h0
  · rintro input0 pledging pledge pledgeOutput0 ⟨h1, h2, h3, h4, h5, h6, h7, h8, h9, h10⟩
    unfold validateNodeAcceptSnapshot
    simp [h1, h2, h3, h4, h5, h6, h7, h8, h9, h10, hround]
  · intro h1 sx
    rw [h1]
    rfl

/-- Witness of C7: the accept snapshot of node `A` with `RoundNumber = 1`. -/
theorem accept_rejects_nonzero_round_witness :
    validateNodeAcceptSnapshot exConfig exCommon exNodePledging
        (exSnapshotA 1 (121 * exHour)) exAcceptTx = some (Err.invalidSnapshotRound 1) ∧
    (exSnapshotA 1 (121 * exHour)).RoundNumber ≠ 0 ∧
    (validateNodeAcceptSnapshot exConfig exCommon exNodePledging
        (exSnapshotA 1 (121 * exHour)) exAcceptTx ≠ none ∧
    (∀ input0 pledging pledge pledgeOutput0,
      AcceptChecksBeforeRound exCommon exNodePledging (exSnapshotA 1 (121 * exHour)) exAcceptTx
        input0 pledging pledge pledgeOutput0 →
      validateNodeAcceptSnapshot exConfig exCommon exNodePledging
          (exSnapshotA 1 (121 * exHour)) exAcceptTx =
        some (Err.invalidSnapshotRound (exSnapshotA 1 (121 * exHour)).RoundNumber)) ∧
    (∀ sx : Stringers,
      (Err.invalidSnapshotRound (exSnapshotA 1 (121 * exHour)).RoundNumber).Error sx =
        "invalid snapshot round " ++ toString (exSnapshotA 1 (121 * exHour)).RoundNumber) ∧
    ((exSnapshotA 1 (121 * exHour)).RoundNumber = 1 → ∀ sx : Stringers,
      (Err.invalidSnapshotRound (exSnapshotA 1 (121 * exHour)).RoundNumber).Error sx =
        "invalid snapshot round 1")) :=
  ⟨by decide, by decide,
    accept_rejects_nonzero_round exConfig exCommon exNodePledging
      (exSnapshotA 1 (121 * exHour)) exAcceptTx (by decide)⟩

/-- C9: when `validateNodeAcceptSnapshot` returns nil, the transaction has exactly one input
and one output, a pledging node exists whose id for the network is the snapshot's `NodeId`,
the hash of the input is `ConsensusPledging.Transaction`, and the transaction read from the
store at that hash has exactly one output, of type `OutputTypeNodePledge`. -/
theorem accept_success_binds_pledge (cfg : Config) (cm : Common) (node : Node)
    (s : Snapshot) (tx : VersionedTransaction)
    (hnone : validateNodeAcceptSnapshot cfg cm node s tx = none) :
    tx.Inputs.length = 1 ∧ tx.Outputs.length = 1 ∧
    ∃ pledging, node.ConsensusPledging = some pledging ∧
      cm.signerId pledging.Signer node.networkId = s.NodeId ∧
      ∃ input0, tx.Inputs = [input0] ∧ input0.Hash = pledging.Transaction ∧
        ∃ pledge pledgeOutput0,
          node.store.ReadTransaction input0.Hash = Except.ok pledge ∧
          pledge.Outputs = [pledgeOutput0] ∧ pledge.Outputs.length = 1 ∧
          pledgeOutput0.Typ = cm.OutputTypeNodePledge := by
  obtain ⟨i0, pl, pt, po, ⟨⟨_, h2, h3, h4, h5, h6, h7, h8, h9, _⟩, _⟩, _⟩ :=
    (validateNodeAcceptSnapshot_eq_none_iff cfg cm node s tx).mp hnone
  refine ⟨by rw [h3]; rfl, h2, pl, h4, h5, i0, h3, h6.symm, pt, po, h7, h8, by rw [h8]; rfl, h9⟩

/-- Witness of C9: the accept snapshot of node `A` at hour 121 is valid. -/
theorem accept_success_binds_pledge_witness :
    validateNodeAcceptSnapshot exConfig exCommon exNodePledging
        (exSnapshotA 0 (121 * exHour)) exAcceptTx = none ∧
    (exAcceptTx.Inputs.length = 1 ∧ exAcceptTx.Outputs.length = 1 ∧
    ∃ pledging, exNodePledging.ConsensusPledging = some pledging ∧
      exCommon.signerId pledging.Signer exNodePledging.networkId =
        (exSnapshotA 0 (121 * exHour)).NodeId ∧
      ∃ input0, exAcceptTx.Inputs = [input0] ∧ input0.Hash = pledging.Transaction ∧
        ∃ pledge pledgeOutput0,
          exNodePledging.store.ReadTransaction input0.Hash = Except.ok pledge ∧
          pledge.Outputs = [pledgeOutput0] ∧ pledge.Outputs.length = 1 ∧
          pledgeOutput0.Typ = exCommon.OutputTypeNodePledge) :=
  ⟨by decide,
    accept_success_binds_pledge exConfig exCommon exNodePledging
      (exSnapshotA 0 (121 * exHour)) exAcceptTx (by decide)⟩

/-- C10: if the round graph holds a cache round or a final round for the snapshot's `NodeId`,
`validateNodeAcceptSnapshot` returns an error. -/
theorem accept_rejects_existing_round (cfg : Config) (cm : Common) (node : Node)
    (s : Snapshot) (tx : VersionedTransaction)
    (hround : node.Graph.CacheRound s.NodeId ≠ none ∨ node.Graph.FinalRound s.NodeId ≠ none) :
    validateNodeAcceptSnapshot cfg cm node s tx ≠ none := by
  intro hnone
  obtain ⟨i0, pl, pt, po, ⟨_, _, hC, hF, _⟩, _⟩ :=
    (validateNodeAcceptSnapshot_eq_none_iff cfg cm node s tx).mp hnone
  rcases hround with h | h
  · exact h hC
  · exact h hF

/-- Witness of C10: the graph already holds a cache round of node `A`. -/
theorem accept_rejects_existing_round_witness :
    validateNodeAcceptSnapshot exConfig exCommon exNodeWithRound
        (exSnapshotA 0 (121 * exHour)) exAcceptTx =
      some (Err.invalidGraphRound (hashOfByte 20) 1) ∧
    (exNodeWithRound.Graph.CacheRound (exSnapshotA 0 (121 * exHour)).NodeId ≠ none ∨
      exNodeWithRound.Graph.FinalRound (exSnapshotA 0 (121 * exHour)).NodeId ≠ none) ∧
    validateNodeAcceptSnapshot exConfig exCommon exNodeWithRound
      (exSnapshotA 0 (121 * exHour)) exAcceptTx ≠ none :=
  ⟨by decide, by decide,
    accept_rejects_existing_round exConfig exCommon exNodeWithRound
      (exSnapshotA 0 (121 * exHour)) exAcceptTx (Or.inl (by decide))⟩

theorem subU64_eq_sub (a b : Nat) (ha : a < 2 ^ 64) (hba : b ≤ a) : subU64 a b = a - b := by
  unfold subU64
  norm_num at ha ⊢
  omega

theorem acceptHour_eq (epoch timestamp : Nat) (ht : timestamp < 2 ^ 64)
    (he : epoch ≤ timestamp) :
    acceptHour epoch timestamp = (((timestamp - epoch) / 3600000000000 % 24 : Nat) : Int) := by
  unfold acceptHour
  rw [subU64_eq_sub timestamp epoch ht he]
  exact (Int.ofNat_tmod _ 24).symm

/-- When every check other than the hour check passes, the result of
`validateNodeAcceptSnapshot` is decided by the hour check. -/
theorem validateNodeAcceptSnapshot_hour (cfg : Config) (cm : Common) (node : Node)
    (s : Snapshot) (tx : VersionedTransaction) (input0 : Input) (pledging : ConsensusNode)
    (pledge : VersionedTransaction) (pledgeOutput0 : Output)
    (hep : node.epoch ≤ s.Timestamp)
    (hother : AcceptChecksOtherThanHour cfg cm node s tx input0 pledging pledge pledgeOutput0) :
    validateNodeAcceptSnapshot cfg cm node s tx =
      if acceptHour node.epoch s.Timestamp < cfg.KernelNodeAcceptTimeBegin ∨
          acceptHour node.epoch s.Timestamp > cfg.KernelNodeAcceptTimeEnd
      then some (Err.invalidNodeAcceptHour (acceptHour node.epoch s.Timestamp)) else none := by
  obtain ⟨⟨h1, h2, h3, h4, h5, h6, h7, h8, h9, h10⟩, h11, h12, h13, h14, h15, h16⟩ := hother
  unfold validateNodeAcceptSnapshot
  simp only [h1, h2, h3, h4, h5, h6, h7, h8, h9, h10, h11, h12, h13, not_lt.mpr hep,
    ne_eq, not_true_eq_false, if_false]
  by_cases hw : acceptHour node.epoch s.Timestamp < cfg.KernelNodeAcceptTimeBegin ∨
      acceptHour node.epoch s.Timestamp > cfg.KernelNodeAcceptTimeEnd
  · simp only [hw, if_true]
  · simp only [hw, h14, h15, h16, if_false]

/-- C8: for an accept snapshot with `Timestamp ≥ epoch` that passes every other check,
`validateNodeAcceptSnapshot` succeeds if and only if the hour of the day
`floor((Timestamp − epoch) / 3600000000000) mod 24` lies between `KernelNodeAcceptTimeBegin`
and `KernelNodeAcceptTimeEnd`; with the window from 1 to 23 a snapshot at epoch + 25 h
passes, and a snapshot at exactly epoch + 24 h is rejected whenever the window begins after
hour 0, with the error of the hour check. -/
theorem accept_hour_gate (cfg : Config) (cm : Common) (node : Node)
    (s : Snapshot) (tx : VersionedTransaction) (input0 : Input) (pledging : ConsensusNode)
    (pledge : VersionedTransaction) (pledgeOutput0 : Output)
    (hts : s.Timestamp < 2 ^ 64) (hep : node.epoch ≤ s.Timestamp)
    (hother : AcceptChecksOtherThanHour cfg cm node s tx input0 pledging pledge pledgeOutput0) :
    (validateNodeAcceptSnapshot cfg cm node s tx = none ↔
      cfg.KernelNodeAcceptTimeBegin
          ≤ (((s.Timestamp - node.epoch) / 3600000000000 % 24 : Nat) : Int) ∧
        (((s.Timestamp - node.epoch) / 3600000000000 % 24 : Nat) : Int)
          ≤ cfg.KernelNodeAcceptTimeEnd) ∧
    (cfg.KernelNodeAcceptTimeBegin = 1 → cfg.KernelNodeAcceptTimeEnd = 23 →
      s.Timestamp = node.epoch + 25 * 3600000000000 →
      validateNodeAcceptSnapshot cfg cm node s tx = none) ∧
    (0 < cfg.KernelNodeAcceptTimeBegin →
      s.Timestamp = node.epoch + 24 * 3600000000000 →
      validateNodeAcceptSnapshot cfg cm node s tx = some (Err.invalidNodeAcceptHour 0)) := by
  have hval := validateNodeAcceptSnapshot_hour cfg cm node s tx input0 pledging pledge
    pledgeOutput0 hep hother
  have hhour := acceptHour_eq node.epoch s.Timestamp hts hep
  refine ⟨?_, ?_, ?_⟩
  · rw [hval, ← hhour]
    by_cases hw : acceptHour node.epoch s.Timestamp < cfg.KernelNodeAcceptTimeBegin ∨
        acceptHour node.epoch s.Timestamp > cfg.KernelNodeAcceptTimeEnd
    · rw [if_pos hw]
      constructor
      · intro h; cases h
      · rintro ⟨hb, he⟩
        rcases hw with h | h
        · exact absurd hb (not_le.mpr h)
        · exact absurd he (not_le.mpr h)
    · rw [if_neg hw]
      constructor
      · intro _
        exact ⟨not_lt.mp (fun h => hw (Or.inl h)), not_lt.mp (fun h => hw (Or.inr h))⟩
      · intro _; rfl
  · intro hb he ht
    have h25 : (s.Timestamp - node.epoch) / 3600000000000 % 24 = 1 := by omega
    rw [h25] at hhour
    rw [hval, hhour, hb, he]
    decide
  · intro hb ht
    have h24 : (s.Timestamp - node.epoch) / 3600000000000 % 24 = 0 := by omega
    rw [h24] at hhour
    rw [hval, hhour]
    have hlt : ((0 : Nat) : Int) < cfg.KernelNodeAcceptTimeBegin := by simpa using hb
    rw [if_pos (Or.inl hlt)]
    rfl

/-- Witness of C8: epoch at hour 96, window from 1 to 23, the accept snapshot of node `A` at
epoch + 25 h. -/
theorem accept_hour_gate_witness :
    validateNodeAcceptSnapshot exConfig exCommon exNodePledging
        (exSnapshotA 0 (96 * exHour + 25 * 3600000000000)) exAcceptTx = none ∧
    validateNodeAcceptSnapshot exConfig exCommon exNodePledging
        (exSnapshotA 0 (96 * exHour + 24 * 3600000000000)) exAcceptTx =
      some (Err.invalidNodeAcceptHour 0) ∧
    (exSnapshotA 0 (96 * exHour + 25 * 3600000000000)).Timestamp < 2 ^ 64 ∧
    exNodePledging.epoch ≤ (exSnapshotA 0 (96 * exHour + 25 * 3600000000000)).Timestamp ∧
    AcceptChecksOtherThanHour exConfig exCommon exNodePledging
      (exSnapshotA 0 (96 * exHour + 25 * 3600000000000)) exAcceptTx ⟨hashOfByte 50⟩
      exPledgingA exPledgeTx ⟨163, NewInteger 10000⟩ ∧
    ((validateNodeAcceptSnapshot exConfig exCommon exNodePledging
        (exSnapshotA 0 (96 * exHour + 25 * 3600000000000)) exAcceptTx = none ↔
      exConfig.KernelNodeAcceptTimeBegin
          ≤ ((((exSnapshotA 0 (96 * exHour + 25 * 3600000000000)).Timestamp -
              exNodePledging.epoch) / 3600000000000 % 24 : Nat) : Int) ∧
        ((((exSnapshotA 0 (96 * exHour + 25 * 3600000000000)).Timestamp -
              exNodePledging.epoch) / 3600000000000 % 24 : Nat) : Int)
          ≤ exConfig.KernelNodeAcceptTimeEnd) ∧
    (exConfig.KernelNodeAcceptTimeBegin = 1 → exConfig.KernelNodeAcceptTimeEnd = 23 →
      (exSnapshotA 0 (96 * exHour + 25 * 3600000000000)).Timestamp =
        exNodePledging.epoch + 25 * 3600000000000 →
      validateNodeAcceptSnapshot exConfig exCommon exNodePledging
        (exSnapshotA 0 (96 * exHour + 25 * 3600000000000)) exAcceptTx = none) ∧
    (0 < exConfig.KernelNodeAcceptTimeBegin →
      (exSnapshotA 0 (96 * exHour + 25 * 3600000000000)).Timestamp =
        exNodePledging.epoch + 24 * 3600000000000 →
      validateNodeAcceptSnapshot exConfig exCommon exNodePledging
          (exSnapshotA 0 (96 * exHour + 25 * 3600000000000)) exAcceptTx =
        some (Err.invalidNodeAcceptHour 0))) :=
  ⟨by decide, by decide, by decide, by decide,
    ⟨⟨rfl, rfl, rfl, rfl, rfl, rfl, rfl, rfl, rfl, by decide⟩,
      rfl, rfl, rfl, by decide, by decide, by decide⟩,
    accept_hour_gate exConfig exCommon exNodePledging
      (exSnapshotA 0 (96 * exHour + 25 * 3600000000000)) exAcceptTx ⟨hashOfByte 50⟩
      exPledgingA exPledgeTx ⟨163, NewInteger 10000⟩ (by decide) (by decide)
      ⟨⟨rfl, rfl, rfl, rfl, rfl, rfl, rfl, rfl, rfl, by decide⟩,
        rfl, rfl, rfl, by decide, by decide, by decide⟩⟩

/-- C4 fails on the code: the elapsed time is converted to `time.Duration`, a signed 64-bit
integer, before it is compared with `KernelNodeAcceptPeriodMaximum`. For a pledge at hour 100
and an accept snapshot `2 ^ 63` ns later (a valid `uint64` timestamp) the conversion yields a
negative duration, `validateNodeAcceptSnapshot` returns nil, and the elapsed time as an
unsigned count exceeds the maximum. -/
theorem accept_period_wraps :
    100 * exHour + 2 ^ 63 < 2 ^ 64 ∧
    exNodePledging.ConsensusPledging = some exPledgingA ∧
    validateNodeAcceptSnapshot exConfig exCommon exNodePledging
      (exSnapshotA 0 (100 * exHour + 2 ^ 63)) exAcceptTx = none ∧
    subU64 (exSnapshotA 0 (100 * exHour + 2 ^ 63)).Timestamp exPledgingA.Timestamp = 2 ^ 63 ∧
    toInt64 (subU64 (exSnapshotA 0 (100 * exHour + 2 ^ 63)).Timestamp exPledgingA.Timestamp)
      = -(2 : Int) ^ 63 ∧
    ¬ ((subU64 (exSnapshotA 0 (100 * exHour + 2 ^ 63)).Timestamp exPledgingA.Timestamp : Int)
      ≤ exConfig.KernelNodeAcceptPeriodMaximum) :=
  ⟨by decide, rfl, by decide, by decide, by decide, by decide⟩

/-! ## Claims on the pledge transaction, staleness and the distance -/

theorem integer_cmp_eq_zero_iff (x y : Integer) : x.Cmp y = 0 ↔ x = y := by
  unfold Integer.Cmp
  cases x with
  | mk a =>
    cases y with
    | mk b =>
      simp only [Integer.mk.injEq]
      by_cases h1 : a < b
      · simp only [h1, if_true]
        constructor
        · intro h; simp at h
        · intro h; omega
      · by_cases h2 : a = b
        · simp [h1, h2]
        · simp [h1, h2]

/-- C11: when `validateNodePledgeSnapshot` reaches `AddNodeOperation`, the asset of the
transaction is `XINAssetId`, it has exactly one output, its `Extra` has exactly
`2 * len(crypto.Key{})` = 64 bytes, and the amount of the output is `NewInteger(10000)`, the
scaled value 10000 × 10^8; conversely, if one of the four fails, the function returns an
error and does not reach `AddNodeOperation`. -/
theorem pledge_transaction_shape (cfg : Config) (cm : Common) (node : Node)
    (clock : PledgeClock) (s : Snapshot) (tx : VersionedTransaction) :
    ((validateNodePledgeSnapshot cfg cm node clock s tx).2 ≠ [] →
      tx.Asset = cm.XINAssetId ∧ tx.Outputs.length = 1 ∧ tx.Extra.length = 64 ∧
      ∃ output0, tx.Outputs = [output0] ∧ output0.Amount = NewInteger 10000 ∧
        output0.Amount.i = 10000 * 10 ^ 8) ∧
    ((tx.Asset ≠ cm.XINAssetId ∨ tx.Outputs.length ≠ 1 ∨ tx.Extra.length ≠ 64 ∨
        (∀ output0, tx.Outputs.head? = some output0 → output0.Amount.i ≠ 10000 * 10 ^ 8)) →
      (validateNodePledgeSnapshot cfg cm node clock s tx).1 ≠ none ∧
      (validateNodePledgeSnapshot cfg cm node clock s tx).2 = []) := by
  have hnew : (NewInteger 10000).i = 10000 * 10 ^ 8 := by decide
  rcases validateNodePledgeSnapshot_calls cfg cm node clock s tx with
    ⟨⟨o, _, _, _, h4, h5, h6, h7⟩, _⟩ | ⟨_, herr, hnil⟩
  · have hamount : o.Amount = NewInteger 10000 := (integer_cmp_eq_zero_iff _ _).mp h7
    have hlen : tx.Extra.length = 64 := by rw [h6]; rfl
    refine ⟨fun _ => ⟨h4, by rw [h5]; rfl, hlen, o, h5, hamount, by rw [hamount]; exact hnew⟩, ?_⟩
    rintro (h | h | h | h)
    · exact absurd h4 h
    · rw [h5] at h
      exact absurd rfl h
    · exact absurd hlen h
    · have := h o (by rw [h5]; rfl)
      rw [hamount] at this
      exact absurd hnew this
  · exact ⟨fun h => absurd hnil h, fun _ => ⟨herr, hnil⟩⟩

/-- Witness of C11: the pledge of node `A` reaches `AddNodeOperation`, and the same pledge
with an empty payload is rejected. -/
theorem pledge_transaction_shape_witness :
    (validateNodePledgeSnapshot exConfig exCommon exNodeIdle (exClock (100 * exHour))
        (exSnapshotA 0 (100 * exHour)) exPledgeTx).2 ≠ [] ∧
    (exPledgeTx.Asset = exCommon.XINAssetId ∧ exPledgeTx.Outputs.length = 1 ∧
      exPledgeTx.Extra.length = 64 ∧
      ∃ output0, exPledgeTx.Outputs = [output0] ∧ output0.Amount = NewInteger 10000 ∧
        output0.Amount.i = 10000 * 10 ^ 8) ∧
    ((validateNodePledgeSnapshot exConfig exCommon exNodeIdle (exClock (100 * exHour))
        (exSnapshotA 0 (100 * exHour)) { exPledgeTx with Extra := [] }).1 ≠ none ∧
      (validateNodePledgeSnapshot exConfig exCommon exNodeIdle (exClock (100 * exHour))
        (exSnapshotA 0 (100 * exHour)) { exPledgeTx with Extra := [] }).2 = []) :=
  ⟨by decide,
    (pledge_transaction_shape exConfig exCommon exNodeIdle (exClock (100 * exHour))
      (exSnapshotA 0 (100 * exHour)) exPledgeTx).1 (by decide),
    (pledge_transaction_shape exConfig exCommon exNodeIdle (exClock (100 * exHour))
      (exSnapshotA 0 (100 * exHour)) { exPledgeTx with Extra := [] }).2
      (Or.inr (Or.inr (Or.inl (by decide))))⟩

theorem addU64_mulU64_le (t g r : Nat) : addU64 t (mulU64 (mulU64 g r) 2) ≤ t + 2 * g * r := by
  unfold addU64 mulU64
  have h1 : (t + g * r % 2 ^ 64 * 2 % 2 ^ 64) % 2 ^ 64 ≤ t + g * r % 2 ^ 64 * 2 % 2 ^ 64 :=
    Nat.mod_le _ _
  have h2 : g * r % 2 ^ 64 * 2 % 2 ^ 64 ≤ g * r % 2 ^ 64 * 2 := Nat.mod_le _ _
  have h3 : g * r % 2 ^ 64 ≤ g * r := Nat.mod_le _ _
  have h4 : 2 * g * r = g * r * 2 := by ring
  omega

/-- C20: when `validateNodeAcceptSnapshot` returns nil the snapshot is not stale:
`s.Timestamp + 2 × SnapshotRoundGap × SnapshotReferenceThreshold ≥ Graph.GraphTimestamp` over
the natural numbers, `s.Timestamp ≥ epoch` and `s.Timestamp ≥ ConsensusPledging.Timestamp`; so
for a `uint64` timestamp the two unsigned subtractions of the function yield the true
differences. -/
theorem accept_not_stale (cfg : Config) (cm : Common) (node : Node)
    (s : Snapshot) (tx : VersionedTransaction)
    (hnone : validateNodeAcceptSnapshot cfg cm node s tx = none) :
    node.Graph.GraphTimestamp
      ≤ s.Timestamp + 2 * cfg.SnapshotRoundGap * cfg.SnapshotReferenceThreshold ∧
    node.epoch ≤ s.Timestamp ∧
    ∃ pledging, node.ConsensusPledging = some pledging ∧
      pledging.Timestamp ≤ s.Timestamp ∧
      (s.Timestamp < 2 ^ 64 →
        ((subU64 s.Timestamp node.epoch : Nat) : Int)
          = (s.Timestamp : Int) - (node.epoch : Int) ∧
        ((subU64 s.Timestamp pledging.Timestamp : Nat) : Int)
          = (s.Timestamp : Int) - (pledging.Timestamp : Int)) := by
  obtain ⟨i0, pl, pt, po, ⟨⟨_, _, _, h4, _⟩, _, _, _, h14, h15, _⟩, h17, _⟩ :=
    (validateNodeAcceptSnapshot_eq_none_iff cfg cm node s tx).mp hnone
  have hstale := addU64_mulU64_le s.Timestamp cfg.SnapshotRoundGap cfg.SnapshotReferenceThreshold
  refine ⟨le_trans (not_lt.mp h14) hstale, not_lt.mp h17, pl, h4, not_lt.mp h15, ?_⟩
  intro hts
  rw [subU64_eq_sub _ _ hts (not_lt.mp h17), subU64_eq_sub _ _ hts (not_lt.mp h15)]
  have h1 := not_lt.mp h17
  have h2 := not_lt.mp h15
  omega

/-- Witness of C20: the accept snapshot of node `A` at hour 121. -/
theorem accept_not_stale_witness :
    validateNodeAcceptSnapshot exConfig exCommon exNodePledging
        (exSnapshotA 0 (121 * exHour)) exAcceptTx = none ∧
    (exNodePledging.Graph.GraphTimestamp
      ≤ (exSnapshotA 0 (121 * exHour)).Timestamp
        + 2 * exConfig.SnapshotRoundGap * exConfig.SnapshotReferenceThreshold ∧
    exNodePledging.epoch ≤ (exSnapshotA 0 (121 * exHour)).Timestamp ∧
    ∃ pledging, exNodePledging.ConsensusPledging = some pledging ∧
      pledging.Timestamp ≤ (exSnapshotA 0 (121 * exHour)).Timestamp ∧
      ((exSnapshotA 0 (121 * exHour)).Timestamp < 2 ^ 64 →
        ((subU64 (exSnapshotA 0 (121 * exHour)).Timestamp exNodePledging.epoch : Nat) : Int)
          = ((exSnapshotA 0 (121 * exHour)).Timestamp : Int) - (exNodePledging.epoch : Int) ∧
        ((subU64 (exSnapshotA 0 (121 * exHour)).Timestamp pledging.Timestamp : Nat) : Int)
          = ((exSnapshotA 0 (121 * exHour)).Timestamp : Int) - (pledging.Timestamp : Int))) :=
  ⟨by decide,
    accept_not_stale exConfig exCommon exNodePledging (exSnapshotA 0 (121 * exHour))
      exAcceptTx (by decide)⟩

theorem setBytes_foldl (bs : List Byte) : ∀ acc : Int,
    bs.foldl (fun acc b => acc * 256 + (b.val : Int)) acc
      = acc * 256 ^ bs.length + (bigEndianValue bs : Int) := by
  induction bs with
  | nil => intro acc; simp [bigEndianValue]
  | cons b rest ih =>
    intro acc
    rw [List.foldl_cons, ih]
    simp only [bigEndianValue, List.length_cons]
    push_cast
    ring

theorem setBytes_eq_bigEndianValue (bs : List Byte) : setBytes bs = (bigEndianValue bs : Int) := by
  unfold setBytes
  rw [setBytes_foldl]
  simp

/-- C19: with `A` and `B` the two hashes read as unsigned big-endian integers,
`nodeDistance(a, b) = |A − B| mod 100`; hence it lies between 0 and 99, it is symmetric, and
the distance of a hash to itself is 0. -/
theorem nodeDistance_abs_mod (a b : Hash) :
    nodeDistance a b = |(bigEndianValue a.val : Int) - (bigEndianValue b.val : Int)| % 100 ∧
    0 ≤ nodeDistance a b ∧ nodeDistance a b ≤ 99 ∧
    nodeDistance a b = nodeDistance b a ∧
    nodeDistance a a = 0 := by
  have key : ∀ x y : Hash, nodeDistance x y
      = |(bigEndianValue x.val : Int) - (bigEndianValue y.val : Int)| % 100 := by
    intro x y
    unfold nodeDistance
    simp only [setBytes_eq_bigEndianValue, Int.natCast_natAbs]
  refine ⟨key a b, ?_, ?_, ?_, ?_⟩
  · rw [key]; omega
  · rw [key]; omega
  · rw [key a b, key b a, abs_sub_comm]
  · rw [key]; simp

/-! ## Claims on the binary encoding -/

theorem bigEndianValue_append_singleton (l : List Byte) (b : Byte) :
    bigEndianValue (l ++ [b]) = bigEndianValue l * 256 + b.val := by
  induction l with
  | nil => simp [bigEndianValue]
  | cons x xs ih =>
    rw [List.cons_append]
    simp only [bigEndianValue]
    rw [ih, List.length_append, List.length_singleton]
    ring

theorem bigIntBytesAux_spec : ∀ (fuel n : Nat), n ≤ fuel →
    bigEndianValue (bigIntBytesAux fuel n) = n ∧
    (bigIntBytesAux fuel n = [] ↔ n = 0) ∧
    (bigIntBytesAux fuel n).head? ≠ some 0 := by
  intro fuel
  induction fuel with
  | zero =>
    intro n hn
    have h0 : n = 0 := by omega
    subst h0
    simp [bigIntBytesAux, bigEndianValue]
  | succ f ih =>
    intro n hn
    unfold bigIntBytesAux
    by_cases h0 : n = 0
    · subst h0
      simp [bigEndianValue]
    · simp only [h0, if_false]
      have hdiv : n / 256 ≤ f := by omega
      obtain ⟨hv, hnil, hhead⟩ := ih (n / 256) hdiv
      refine ⟨?_, ?_, ?_⟩
      · rw [bigEndianValue_append_singleton, hv]
        show n / 256 * 256 + n % 256 = n
        omega
      · simp [h0]
      · by_cases hq : n / 256 = 0
        · rw [hnil.mpr hq]
          simp only [List.nil_append, List.head?_cons, ne_eq, Option.some.injEq]
          intro hb
          have hval := congrArg Fin.val hb
          simp only [Fin.val_zero] at hval
          omega
        · have hne : bigIntBytesAux f (n / 256) ≠ [] := fun h => hq (hnil.mp h)
          cases hl : bigIntBytesAux f (n / 256) with
          | nil => exact absurd hl hne
          | cons y ys =>
            rw [hl] at hhead
            simpa using hhead

/-- C17: for an Integer `x` with non-negative scaled value, `MarshalMsgpack(x)` is the
big-endian byte sequence of the value, without leading zero byte and empty for zero, with a
nil error; `UnmarshalMsgpack` applied to these bytes yields an Integer equal to `x`
(`Cmp` = 0), whatever the receiver held before. -/
theorem msgpack_round_trip (x : Integer) (hx : 0 ≤ x.i) :
    x.MarshalMsgpack.2 = none ∧
    (bigEndianValue x.MarshalMsgpack.1 : Int) = x.i ∧
    x.MarshalMsgpack.1.head? ≠ some 0 ∧
    (x.i = 0 → x.MarshalMsgpack.1 = []) ∧
    ∀ r : Integer,
      (r.UnmarshalMsgpack x.MarshalMsgpack.1).2 = none ∧
      (r.UnmarshalMsgpack x.MarshalMsgpack.1).1 = x ∧
      (r.UnmarshalMsgpack x.MarshalMsgpack.1).1.Cmp x = 0 := by
  obtain ⟨hv, hnil, hhead⟩ := bigIntBytesAux_spec x.i.natAbs x.i.natAbs (le_refl _)
  have habs : ((x.i.natAbs : Nat) : Int) = x.i := Int.natAbs_of_nonneg hx
  have hval : (bigEndianValue (bigIntBytes x.i) : Int) = x.i := by
    unfold bigIntBytes
    rw [hv, habs]
  have hback : (⟨setBytes (bigIntBytes x.i)⟩ : Integer) = x := by
    rw [setBytes_eq_bigEndianValue, hval]
  refine ⟨rfl, hval, hhead, ?_, ?_⟩
  · intro h0
    exact hnil.mpr (by rw [h0]; rfl)
  · intro r
    refine ⟨rfl, hback, ?_⟩
    exact (integer_cmp_eq_zero_iff _ _).mpr hback

/-- Witness of C17: the amount `NewInteger(10000)`, whose bytes are `e8 d4 a5 10 00`. -/
theorem msgpack_round_trip_witness :
    (NewInteger 10000).MarshalMsgpack.1 = [232, 212, 165, 16, 0] ∧
    0 ≤ (NewInteger 10000).i ∧
    ((NewInteger 10000).MarshalMsgpack.2 = none ∧
    (bigEndianValue (NewInteger 10000).MarshalMsgpack.1 : Int) = (NewInteger 10000).i ∧
    (NewInteger 10000).MarshalMsgpack.1.head? ≠ some 0 ∧
    ((NewInteger 10000).i = 0 → (NewInteger 10000).MarshalMsgpack.1 = []) ∧
    ∀ r : Integer,
      (r.UnmarshalMsgpack (NewInteger 10000).MarshalMsgpack.1).2 = none ∧
      (r.UnmarshalMsgpack (NewInteger 10000).MarshalMsgpack.1).1 = NewInteger 10000 ∧
      (r.UnmarshalMsgpack (NewInteger 10000).MarshalMsgpack.1).1.Cmp (NewInteger 10000) = 0) :=
  ⟨by decide, by decide, msgpack_round_trip (NewInteger 10000) (by decide)⟩

/-! ## Claims on the frame of the validation functions -/

/-- C12: a validation error of `validateNodePledgeSnapshot` comes with no call of the store's
`AddNodeOperation`; and `validateNodeAcceptSnapshot`, whether it succeeds or fails, leaves
`ConsensusNodes`, `ConsensusPledging` and `Graph` of the node as they were and issues no write
to the store. -/
theorem validation_leaves_state (cfg : Config) (cm : Common) (node : Node)
    (clock : PledgeClock) (s : Snapshot) (tx : VersionedTransaction) :
    (∀ e : Err, (validateNodePledgeSnapshot cfg cm node clock s tx).1 = some e →
      e.isValidation = true →
      (validateNodePledgeSnapshot cfg cm node clock s tx).2 = []) ∧
    (validateNodeAcceptSnapshotRun cfg cm node s tx).1
      = validateNodeAcceptSnapshot cfg cm node s tx ∧
    (validateNodeAcceptSnapshotRun cfg cm node s tx).2.1.ConsensusNodes
      = node.ConsensusNodes ∧
    (validateNodeAcceptSnapshotRun cfg cm node s tx).2.1.ConsensusPledging
      = node.ConsensusPledging ∧
    (validateNodeAcceptSnapshotRun cfg cm node s tx).2.1.Graph = node.Graph ∧
    (validateNodeAcceptSnapshotRun cfg cm node s tx).2.2 = [] := by
  refine ⟨?_, rfl, rfl, rfl, rfl, rfl⟩
  intro e he hv
  rcases validateNodePledgeSnapshot_calls cfg cm node clock s tx with ⟨_, heq⟩ | ⟨_, _, hnil⟩
  · rw [heq] at he
    simp only at he
    cases hadd : node.store.AddNodeOperation tx (pledgeTimestamp node clock s)
        (toUint64 cfg.KernelNodeOperationLockThreshold) with
    | none => rw [hadd] at he; cases he
    | some se =>
      rw [hadd] at he
      simp only [Option.map_some', Option.some.injEq] at he
      rw [← he] at hv
      cases hv
  · exact hnil

/-- Witness of C12: the second pledge, rejected with a validation error, and the accept
snapshot with a wrong round. -/
theorem validation_leaves_state_witness :
    (validateNodePledgeSnapshot exConfig exCommon exNodePledging (exClock (200 * exHour))
        (exSnapshotB (200 * exHour)) exPledgeTx).1
      = some (Err.invalidNodeState exSignerA NodeState.Pledging) ∧
    (Err.invalidNodeState exSignerA NodeState.Pledging).isValidation = true ∧
    (validateNodePledgeSnapshot exConfig exCommon exNodePledging (exClock (200 * exHour))
        (exSnapshotB (200 * exHour)) exPledgeTx).2 = [] ∧
    (validateNodeAcceptSnapshotRun exConfig exCommon exNodePledging
        (exSnapshotA 1 (121 * exHour)) exAcceptTx).2.2 = [] :=
  ⟨by decide, rfl,
    (validation_leaves_state exConfig exCommon exNodePledging (exClock (200 * exHour))
      (exSnapshotB (200 * exHour)) exPledgeTx).1
      (Err.invalidNodeState exSignerA NodeState.Pledging) (by decide) rfl,
    (validation_leaves_state exConfig exCommon exNodePledging (exClock (200 * exHour))
      (exSnapshotA 1 (121 * exHour)) exAcceptTx).2.2.2.2.2⟩

/-! ## Claims on the stability of the selection -/

theorem filter_head_of_first (p : Hash → Bool) : ∀ (l : List Hash) (i : Nat) (e : Hash),
    l[i]? = some e → p e = true →
    (∀ (j : Nat) (c : Hash), j < i → l[j]? = some c → p c = false) →
    (l.filter p).head? = some e := by
  intro l
  induction l with
  | nil => intro i e hi; simp at hi
  | cons x xs ih =>
    intro i e hi hp hbefore
    cases i with
    | zero =>
      simp only [List.getElem?_cons_zero, Option.some.injEq] at hi
      rw [hi, List.filter_cons_of_pos hp]
      rfl
    | succ k =>
      have hx : p x = false := hbefore 0 x (Nat.succ_pos k) (by simp)
      rw [List.filter_cons_of_neg (by simp [hx])]
      simp only [List.getElem?_cons_succ] at hi
      refine ih k e hi hp ?_
      intro j c hj hc
      exact hbefore (j + 1) c (Nat.succ_lt_succ hj) (by simpa using hc)

/-- The selection loop returns the first of the closest candidates. -/
theorem selectExternal_eq_head_closest (target : Hash) (candidates : List Hash) :
    selectExternal target candidates = (closestCandidates target candidates).head? := by
  cases candidates with
  | nil => rfl
  | cons g0 rest =>
    obtain ⟨hd, i, hi, hmin, hlt⟩ := selInv_final target g0 rest
    unfold closestCandidates
    symm
    refine filter_head_of_first _ (g0 :: rest) i _ hi ?_ ?_
    · simp only [decide_eq_true_eq]
      intro c' hc'
      obtain ⟨j, hj⟩ := List.getElem?_of_mem hc'
      rw [← hd]
      exact hmin j c' hj
    · intro j c hji hj
      simp only [decide_eq_false_iff_not, not_forall]
      refine ⟨_, List.getElem?_mem hi, ?_⟩
      have := hlt j c hji hj
      rw [hd] at this
      exact not_le.mpr this

/-- C18: the selection is stable under reordering: for two non-empty candidate lists that are
permutations of each other and in which the candidates attaining the least `nodeDistance`
to the target appear in the same order, the selection loop returns the same candidate. -/
theorem selectExternal_stable (target : Hash) (l1 l2 : List Hash)
    (hne1 : l1 ≠ []) (_hne2 : l2 ≠ []) (_hperm : l1.Perm l2)
    (hsame : closestCandidates target l1 = closestCandidates target l2) :
    ∃ e, selectExternal target l1 = some e ∧ selectExternal target l2 = some e := by
  cases l1 with
  | nil => exact absurd rfl hne1
  | cons g0 rest =>
    refine ⟨_, rfl, ?_⟩
    rw [selectExternal_eq_head_closest target l2, ← hsame,
      ← selectExternal_eq_head_closest target (g0 :: rest)]
    rfl

/-- Witness of C18: the candidates at distances 4, 2, 2 and the same candidates with the
first two swapped; both lists give the candidate `hashOfByte 3`. -/
theorem selectExternal_stable_witness :
    selectExternal (hashOfByte 5) [hashOfByte 3, hashOfByte 9, hashOfByte 7]
      = some (hashOfByte 3) ∧
    [hashOfByte 9, hashOfByte 3, hashOfByte 7] ≠ [] ∧
    [hashOfByte 3, hashOfByte 9, hashOfByte 7] ≠ [] ∧
    List.Perm [hashOfByte 9, hashOfByte 3, hashOfByte 7]
      [hashOfByte 3, hashOfByte 9, hashOfByte 7] ∧
    closestCandidates (hashOfByte 5) [hashOfByte 9, hashOfByte 3, hashOfByte 7]
      = closestCandidates (hashOfByte 5) [hashOfByte 3, hashOfByte 9, hashOfByte 7] ∧
    ∃ e, selectExternal (hashOfByte 5) [hashOfByte 9, hashOfByte 3, hashOfByte 7] = some e ∧
      selectExternal (hashOfByte 5) [hashOfByte 3, hashOfByte 9, hashOfByte 7] = some e :=
  ⟨by decide, by decide, by decide, by decide, by decide,
    selectExternal_stable (hashOfByte 5) [hashOfByte 9, hashOfByte 3, hashOfByte 7]
      [hashOfByte 3, hashOfByte 9, hashOfByte 7] (by decide) (by decide) (by decide)
      (by decide)⟩

/-! ## Claims on the reload and on the finalization -/

/-- C13: for a transaction of type NodePledge, NodeAccept, NodeDepart or NodeRemove,
`reloadConsensusNodesList` first reloads the consensus nodes; when that fails it returns the
error without rebuilding the graph; when it succeeds it rebuilds the round graph, and it
replaces `node.Graph` by the new graph only when the rebuild succeeds, otherwise it returns
the error and `node.Graph` is unchanged. For every other type it returns nil, makes no call
and changes nothing. -/
theorem reload_consensus_nodes (k : Kernel) (tt : TransactionTypes) (node : Node)
    (s : Snapshot) (tx : VersionedTransaction) :
    ((tt.TransactionType tx = tt.TransactionTypeNodePledge ∨
        tt.TransactionType tx = tt.TransactionTypeNodeAccept ∨
        tt.TransactionType tx = tt.TransactionTypeNodeDepart ∨
        tt.TransactionType tx = tt.TransactionTypeNodeRemove) →
      (∀ err, k.readConsensusNodes node = Except.error err →
        reloadConsensusNodesList k tt node s tx
          = (some (Err.store err), node, [ReloadCall.LoadConsensusNodes])) ∧
      (∀ nodes pledging, k.readConsensusNodes node = Except.ok (nodes, pledging) →
        (∀ err,
          k.LoadRoundGraph node.store node.networkId node.IdForNetwork = Except.error err →
          reloadConsensusNodesList k tt node s tx
            = (some (Err.store err),
                { node with ConsensusNodes := nodes, ConsensusPledging := pledging },
                [ReloadCall.LoadConsensusNodes, ReloadCall.LoadRoundGraph]) ∧
          (reloadConsensusNodesList k tt node s tx).2.1.Graph = node.Graph) ∧
        (∀ graph,
          k.LoadRoundGraph node.store node.networkId node.IdForNetwork = Except.ok graph →
          reloadConsensusNodesList k tt node s tx
            = (none,
                { node with ConsensusNodes := nodes, ConsensusPledging := pledging,
                            Graph := graph },
                [ReloadCall.LoadConsensusNodes, ReloadCall.LoadRoundGraph])))) ∧
    (¬ (tt.TransactionType tx = tt.TransactionTypeNodePledge ∨
        tt.TransactionType tx = tt.TransactionTypeNodeAccept ∨
        tt.TransactionType tx = tt.TransactionTypeNodeDepart ∨
        tt.TransactionType tx = tt.TransactionTypeNodeRemove) →
      reloadConsensusNodesList k tt node s tx = (none, node, [])) := by
  constructor
  · intro hty
    constructor
    · intro err herr
      unfold reloadConsensusNodesList Node.LoadConsensusNodes
      simp only [hty, if_true, herr]
    · intro nodes pledging hok
      constructor
      · intro err herr
        unfold reloadConsensusNodesList Node.LoadConsensusNodes
        simp only [hty, if_true, hok, herr, and_self]
      · intro graph hgraph
        unfold reloadConsensusNodesList Node.LoadConsensusNodes
        simp only [hty, if_true, hok, hgraph]
  · intro hty
    unfold reloadConsensusNodesList
    simp only [hty, if_false]

/-- Witness of C13: the accept transaction of node `A` makes the node reload its consensus
nodes and take the rebuilt graph; a transaction of another type changes nothing. -/
theorem reload_consensus_nodes_witness :
    (exTransactionTypes.TransactionType exAcceptTx
        = exTransactionTypes.TransactionTypeNodePledge ∨
      exTransactionTypes.TransactionType exAcceptTx
        = exTransactionTypes.TransactionTypeNodeAccept ∨
      exTransactionTypes.TransactionType exAcceptTx
        = exTransactionTypes.TransactionTypeNodeDepart ∨
      exTransactionTypes.TransactionType exAcceptTx
        = exTransactionTypes.TransactionTypeNodeRemove) ∧
    reloadConsensusNodesList exKernel exTransactionTypes exNodeIdle
        (exSnapshotA 0 (121 * exHour)) exAcceptTx
      = (none,
          { exNodeIdle with ConsensusNodes := [exGenesisNode],
                            ConsensusPledging := some exPledgingA,
                            Graph := exGraphWithRound },
          [ReloadCall.LoadConsensusNodes, ReloadCall.LoadRoundGraph]) ∧
    reloadConsensusNodesList exKernel exTransactionTypes exNodeIdle
        (exSnapshotA 0 (121 * exHour)) exAcceptTxOtherPayload = (none, exNodeIdle, []) :=
  ⟨by decide,
    (((reload_consensus_nodes exKernel exTransactionTypes exNodeIdle
      (exSnapshotA 0 (121 * exHour)) exAcceptTx).1 (by decide)).2
        [exGenesisNode] (some exPledgingA) rfl).2 exGraphWithRound rfl,
    (reload_consensus_nodes exKernel exTransactionTypes exNodeIdle
      (exSnapshotA 0 (121 * exHour)) exAcceptTxOtherPayload).2 (by decide)⟩

/-- C14 fails as stated: on a store whose `StartNewRound` fails, for an accept snapshot that
`validateNodeAcceptSnapshot` accepts and a non-empty genesis list,
`finalizeNodeAcceptSnapshot` panics after its first store call: a single round is started and
no cache round is published. -/
theorem finalize_panics_when_store_fails :
    validateNodeAcceptSnapshot exConfig exCommon exNodeFailing
      (exSnapshotA 0 (121 * exHour)) exAcceptTx = none ∧
    exNodeFailing.genesisNodes ≠ [] ∧
    (finalizeNodeAcceptSnapshot exConfig exKernel exNodeFailing
      (exSnapshotA 0 (121 * exHour))).roundsStarted = [(hashOfByte 20, 0)] ∧
    (finalizeNodeAcceptSnapshot exConfig exKernel exNodeFailing
      (exSnapshotA 0 (121 * exHour))).roundsStarted ≠ [(hashOfByte 20, 0), (hashOfByte 20, 1)] ∧
    (finalizeNodeAcceptSnapshot exConfig exKernel exNodeFailing
      (exSnapshotA 0 (121 * exHour))).published = none :=
  ⟨by decide, by decide, by decide, by decide, by decide⟩

/-- C14, amended: for an accept snapshot `s` that `validateNodeAcceptSnapshot` accepts (so
`s.RoundNumber = 0`) and a genesis list in which the selection loop picks `e`, whenever the
snapshot is valid for its round and the store calls succeed, `finalizeNodeAcceptSnapshot`
returns nil, starts exactly two rounds for `s.NodeId`, numbered 0 then 1, and publishes a
cache round with `Number = 1`, `Timestamp = s.Timestamp + SnapshotRoundGap + 1` (in `uint64`
arithmetic), `References.Self` the hash of `ComputeRoundHash(s.NodeId, 0, [s])` and
`References.External` the hash of `ComputeRoundHash(e, 0, ss)` for the stored snapshots `ss`
of round 0 of `e`; and `e` is a genesis node with the least `nodeDistance` to `s.NodeId`. -/
theorem finalize_starts_two_rounds (cfg : Config) (cm : Common) (k : Kernel) (node : Node)
    (s : Snapshot) (tx : VersionedTransaction) (e : Hash)
    (ss : List SnapshotWithTopologicalOrder)
    (hvalid : validateNodeAcceptSnapshot cfg cm node s tx = none)
    (hsel : selectExternal s.NodeId node.genesisNodes = some e)
    (hcalls : FinalizeCallsSucceed cfg k node s e ss) :
    (∃ node1 final cache,
      finalizeNodeAcceptSnapshot cfg k node s
        = FinalizeResult.returned none node1
            [StoreCall.StartNewRound s.NodeId 0 ⟨zeroHash, zeroHash⟩ s.Timestamp,
              StoreCall.WriteSnapshot ⟨s, (k.topoNext node.TopoCounter).1⟩,
              StoreCall.StartNewRound s.NodeId 1 cache.References cache.Timestamp]
            final cache ∧
      node1 = k.assignNewGraphRound { node with TopoCounter := (k.topoNext node.TopoCounter).2 }
        final cache ∧
      cache.NodeId = s.NodeId ∧ cache.Number = 1 ∧
      cache.Timestamp = addU64 (addU64 s.Timestamp cfg.SnapshotRoundGap) 1 ∧
      (s.Timestamp + cfg.SnapshotRoundGap + 1 < 2 ^ 64 →
        cache.Timestamp = s.Timestamp + cfg.SnapshotRoundGap + 1) ∧
      cache.References.Self = (k.ComputeRoundHash s.NodeId 0 [s]).2.2 ∧
      cache.References.External
        = (k.ComputeRoundHash e 0 (ss.map (fun t => t.Snapshot))).2.2) ∧
    (finalizeNodeAcceptSnapshot cfg k node s).roundsStarted = [(s.NodeId, 0), (s.NodeId, 1)] ∧
    e ∈ node.genesisNodes ∧
    ∀ c ∈ node.genesisNodes, nodeDistance s.NodeId e ≤ nodeDistance s.NodeId c := by
  obtain ⟨_, _, _, _, ⟨_, hround, _⟩, _⟩ :=
    (validateNodeAcceptSnapshot_eq_none_iff cfg cm node s tx).mp hvalid
  obtain ⟨h1, h2, h3, h4, h5⟩ := hcalls
  rw [hround] at h1 h2 h3 h4 h5
  have hrun : finalizeNodeAcceptSnapshot cfg k node s
      = FinalizeResult.returned none
          (k.assignNewGraphRound { node with TopoCounter := (k.topoNext node.TopoCounter).2 }
            (k.asFinal { NodeId := s.NodeId, Number := 0, Timestamp := s.Timestamp,
                         References := ⟨zeroHash, zeroHash⟩, Snapshots := [s] })
            { NodeId := s.NodeId, Number := 1,
              Timestamp := addU64 (addU64 s.Timestamp cfg.SnapshotRoundGap) 1,
              References := ⟨(k.ComputeRoundHash s.NodeId 0 [s]).2.2,
                (k.ComputeRoundHash e 0 (ss.map (fun t => t.Snapshot))).2.2⟩,
              Snapshots := [] })
          [StoreCall.StartNewRound s.NodeId 0 ⟨zeroHash, zeroHash⟩ s.Timestamp,
            StoreCall.WriteSnapshot ⟨s, (k.topoNext node.TopoCounter).1⟩,
            StoreCall.StartNewRound s.NodeId 1
              ⟨(k.ComputeRoundHash s.NodeId 0 [s]).2.2,
                (k.ComputeRoundHash e 0 (ss.map (fun t => t.Snapshot))).2.2⟩
              (addU64 (addU64 s.Timestamp cfg.SnapshotRoundGap) 1)]
          (k.asFinal { NodeId := s.NodeId, Number := 0, Timestamp := s.Timestamp,
                       References := ⟨zeroHash, zeroHash⟩, Snapshots := [s] })
          { NodeId := s.NodeId, Number := 1,
            Timestamp := addU64 (addU64 s.Timestamp cfg.SnapshotRoundGap) 1,
            References := ⟨(k.ComputeRoundHash s.NodeId 0 [s]).2.2,
              (k.ComputeRoundHash e 0 (ss.map (fun t => t.Snapshot))).2.2⟩,
            Snapshots := [] } := by
    unfold finalizeNodeAcceptSnapshot CacheRound.ValidateSnapshot
    simp only [hround, h1, h2, h3, h4, h5, hsel, if_true, List.nil_append]
  refine ⟨⟨_, _, _, hrun, rfl, rfl, rfl, rfl, ?_, rfl, rfl⟩, ?_, ?_, ?_⟩
  · intro hlt
    show addU64 (addU64 s.Timestamp cfg.SnapshotRoundGap) 1
      = s.Timestamp + cfg.SnapshotRoundGap + 1
    have hlt2 : s.Timestamp + cfg.SnapshotRoundGap < 2 ^ 64 := by omega
    unfold addU64
    rw [Nat.mod_eq_of_lt hlt2, Nat.mod_eq_of_lt hlt]
  · rw [hrun]
    rfl
  · cases hg : node.genesisNodes with
    | nil => rw [hg] at hsel; cases hsel
    | cons g0 rest =>
      rw [hg] at hsel
      obtain ⟨_, i, hi, _, _⟩ := selInv_final s.NodeId g0 rest
      have he : e = ((g0 :: rest).foldl (selectStep s.NodeId)
          (g0, nodeDistance s.NodeId g0)).1 := by
        simp only [selectExternal, Option.some.injEq] at hsel
        exact hsel.symm
      rw [he]
      exact List.getElem?_mem hi
  · cases hg : node.genesisNodes with
    | nil => rw [hg] at hsel; cases hsel
    | cons g0 rest =>
      rw [hg] at hsel
      obtain ⟨hd, i, _, hmin, _⟩ := selInv_final s.NodeId g0 rest
      have he : e = ((g0 :: rest).foldl (selectStep s.NodeId)
          (g0, nodeDistance s.NodeId g0)).1 := by
        simp only [selectExternal, Option.some.injEq] at hsel
        exact hsel.symm
      intro c hc
      obtain ⟨j, hj⟩ := List.getElem?_of_mem hc
      rw [he, ← hd]
      exact hmin j c hj

/-- Witness of the amended C14: the accept snapshot of node `A` at hour 121 on the store that
accepts every call; the only genesis node is `hashOfByte 10`. -/
theorem finalize_starts_two_rounds_witness :
    (finalizeNodeAcceptSnapshot exConfig exKernel exNodePledging
      (exSnapshotA 0 (121 * exHour))).roundsStarted
      = [(hashOfByte 20, 0), (hashOfByte 20, 1)] ∧
    (finalizeNodeAcceptSnapshot exConfig exKernel exNodePledging
      (exSnapshotA 0 (121 * exHour))).published
      = some ⟨hashOfByte 20, 1, 121 * exHour + 3000000001,
          ⟨hashOfByte 99, hashOfByte 99⟩, []⟩ ∧
    validateNodeAcceptSnapshot exConfig exCommon exNodePledging
      (exSnapshotA 0 (121 * exHour)) exAcceptTx = none ∧
    selectExternal (exSnapshotA 0 (121 * exHour)).NodeId exNodePledging.genesisNodes
      = some (hashOfByte 10) ∧
    FinalizeCallsSucceed exConfig exKernel exNodePledging (exSnapshotA 0 (121 * exHour))
      (hashOfByte 10) [⟨⟨hashOfByte 10, 0, 0⟩, 0⟩] ∧
    ((∃ node1 final cache,
      finalizeNodeAcceptSnapshot exConfig exKernel exNodePledging (exSnapshotA 0 (121 * exHour))
        = FinalizeResult.returned none node1
            [StoreCall.StartNewRound (exSnapshotA 0 (121 * exHour)).NodeId 0
                ⟨zeroHash, zeroHash⟩ (exSnapshotA 0 (121 * exHour)).Timestamp,
              StoreCall.WriteSnapshot
                ⟨exSnapshotA 0 (121 * exHour), (exKernel.topoNext exNodePledging.TopoCounter).1⟩,
              StoreCall.StartNewRound (exSnapshotA 0 (121 * exHour)).NodeId 1 cache.References
                cache.Timestamp]
            final cache ∧
      node1 = exKernel.assignNewGraphRound
        { exNodePledging with
            TopoCounter := (exKernel.topoNext exNodePledging.TopoCounter).2 }
        final cache ∧
      cache.NodeId = (exSnapshotA 0 (121 * exHour)).NodeId ∧ cache.Number = 1 ∧
      cache.Timestamp
        = addU64 (addU64 (exSnapshotA 0 (121 * exHour)).Timestamp exConfig.SnapshotRoundGap) 1 ∧
      ((exSnapshotA 0 (121 * exHour)).Timestamp + exConfig.SnapshotRoundGap + 1 < 2 ^ 64 →
        cache.Timestamp
          = (exSnapshotA 0 (121 * exHour)).Timestamp + exConfig.SnapshotRoundGap + 1) ∧
      cache.References.Self
        = (exKernel.ComputeRoundHash (exSnapshotA 0 (121 * exHour)).NodeId 0
            [exSnapshotA 0 (121 * exHour)]).2.2 ∧
      cache.References.External
        = (exKernel.ComputeRoundHash (hashOfByte 10) 0
            (List.map (fun t => t.Snapshot)
              [(⟨⟨hashOfByte 10, 0, 0⟩, 0⟩ : SnapshotWithTopologicalOrder)])).2.2) ∧
    (finalizeNodeAcceptSnapshot exConfig exKernel exNodePledging
      (exSnapshotA 0 (121 * exHour))).roundsStarted
      = [((exSnapshotA 0 (121 * exHour)).NodeId, 0), ((exSnapshotA 0 (121 * exHour)).NodeId, 1)] ∧
    hashOfByte 10 ∈ exNodePledging.genesisNodes ∧
    ∀ c ∈ exNodePledging.genesisNodes,
      nodeDistance (exSnapshotA 0 (121 * exHour)).NodeId (hashOfByte 10)
        ≤ nodeDistance (exSnapshotA 0 (121 * exHour)).NodeId c) :=
  ⟨by decide, by decide, by decide, by decide,
    ⟨by decide, by decide, by decide, rfl, by decide⟩,
    finalize_starts_two_rounds exConfig exCommon exKernel exNodePledging
      (exSnapshotA 0 (121 * exHour)) exAcceptTx (hashOfByte 10) [⟨⟨hashOfByte 10, 0, 0⟩, 0⟩]
      (by decide) (by decide) ⟨by decide, by decide, by decide, rfl, by decide⟩⟩

/-! ## Decimal digits -/

theorem digitChar_spec (d : Nat) (h : d < 10) :
    isDecimalDigit (Nat.digitChar d) = true ∧ (Nat.digitChar d).toNat - 48 = d := by
  interval_cases d <;> exact ⟨rfl, rfl⟩

theorem digits_foldl (cs : List Char) : ∀ acc : Nat,
    cs.foldl (fun acc c => acc * 10 + (c.toNat - 48)) acc
      = acc * 10 ^ cs.length + digitsValue cs := by
  induction cs with
  | nil => intro acc; simp [digitsValue]
  | cons c rest ih =>
    intro acc
    unfold digitsValue
    rw [List.foldl_cons, List.foldl_cons, ih, ih (0 * 10 + (c.toNat - 48))]
    simp only [List.length_cons]
    ring

theorem digitsValue_cons (c : Char) (cs : List Char) :
    digitsValue (c :: cs) = (c.toNat - 48) * 10 ^ cs.length + digitsValue cs := by
  unfold digitsValue
  rw [List.foldl_cons, digits_foldl]
  simp [digitsValue]

theorem digitsValue_append (a b : List Char) :
    digitsValue (a ++ b) = digitsValue a * 10 ^ b.length + digitsValue b := by
  unfold digitsValue
  rw [List.foldl_append, digits_foldl]
  rfl

theorem digitsValue_lt : ∀ cs : List Char, (∀ c ∈ cs, isDecimalDigit c = true) →
    digitsValue cs < 10 ^ cs.length := by
  intro cs
  induction cs with
  | nil => intro _; simp [digitsValue]
  | cons c rest ih =>
    intro h
    rw [digitsValue_cons]
    have hc := h c (List.mem_cons_self _ _)
    have hrest := ih (fun x hx => h x (List.mem_cons_of_mem _ hx))
    simp only [isDecimalDigit, decide_eq_true_eq] at hc
    have h9 : c.toNat - 48 ≤ 9 := by omega
    have hmul : (c.toNat - 48) * 10 ^ rest.length ≤ 9 * 10 ^ rest.length :=
      Nat.mul_le_mul_right _ h9
    simp only [List.length_cons, pow_succ]
    omega

theorem digitsValue_zeros (n : Nat) (cs : List Char) :
    digitsValue (List.replicate n '0' ++ cs) = digitsValue cs := by
  induction n with
  | zero => simp
  | succ k ih =>
    rw [List.replicate_succ, List.cons_append, digitsValue_cons, ih]
    have h0 : ('0' : Char).toNat - 48 = 0 := rfl
    rw [h0]
    simp

theorem toDigitsCore_spec : ∀ (fuel n : Nat) (ds : List Char), n < fuel →
    (∀ c ∈ ds, isDecimalDigit c = true) →
    (∀ c ∈ Nat.toDigitsCore 10 fuel n ds, isDecimalDigit c = true) ∧
    (Nat.toDigitsCore 10 fuel n ds).foldl (fun acc c => acc * 10 + (c.toNat - 48)) 0
      = ds.foldl (fun acc c => acc * 10 + (c.toNat - 48)) n ∧
    Nat.toDigitsCore 10 fuel n ds ≠ [] := by
  intro fuel
  induction fuel with
  | zero => intro n ds h; omega
  | succ f ih =>
    intro n ds hn hds
    have hd := digitChar_spec (n % 10) (Nat.mod_lt n (by decide))
    simp only [Nat.toDigitsCore]
    by_cases hq : n / 10 = 0
    · simp only [hq, if_true]
      refine ⟨?_, ?_, by simp⟩
      · intro c hc
        rcases List.mem_cons.mp hc with h | h
        · rw [h]; exact hd.1
        · exact hds c h
      · rw [List.foldl_cons, hd.2]
        have : n % 10 = n := by omega
        simp [this]
    · simp only [hq, if_false]
      have hlt : n / 10 < f := by omega
      have hds2 : ∀ c ∈ Nat.digitChar (n % 10) :: ds, isDecimalDigit c = true := by
        intro c hc
        rcases List.mem_cons.mp hc with h | h
        · rw [h]; exact hd.1
        · exact hds c h
      obtain ⟨h1, h2, h3⟩ := ih (n / 10) (Nat.digitChar (n % 10) :: ds) hlt hds2
      refine ⟨h1, ?_, h3⟩
      rw [h2, List.foldl_cons, hd.2]
      have : n / 10 * 10 + n % 10 = n := by omega
      rw [this]

/-- The text of a natural number, `Nat.toDigits 10 n`, is a non-empty list of decimal digits
that writes `n`. -/
theorem toDigits_spec (n : Nat) :
    (∀ c ∈ Nat.toDigits 10 n, isDecimalDigit c = true) ∧
    digitsValue (Nat.toDigits 10 n) = n ∧ Nat.toDigits 10 n ≠ [] := by
  obtain ⟨h1, h2, h3⟩ := toDigitsCore_spec (n + 1) n [] (Nat.lt_succ_self n) (by simp)
  refine ⟨h1, ?_, h3⟩
  unfold digitsValue Nat.toDigits
  rw [h2]
  rfl

theorem parseDigits_of_digits (cs : List Char) (hne : cs ≠ [])
    (hall : ∀ c ∈ cs, isDecimalDigit c = true) : parseDigits cs = some (digitsValue cs) := by
  unfold parseDigits
  rw [if_neg hne]
  have : cs.all isDecimalDigit = true := List.all_eq_true.mpr hall
  rw [if_pos this]

theorem digit_ne_sign (c : Char) (h : isDecimalDigit c = true) :
    c ≠ '-' ∧ c ≠ '+' ∧ c ≠ '.' ∧ c ≠ 'E' ∧ c ≠ 'e' := by
  simp only [isDecimalDigit, decide_eq_true_eq] at h
  refine ⟨?_, ?_, ?_, ?_, ?_⟩ <;>
  · intro hc
    rw [hc] at h
    revert h
    decide

theorem bigIntSetString_of_digits (cs : List Char) (hne : cs ≠ [])
    (hall : ∀ c ∈ cs, isDecimalDigit c = true) :
    bigIntSetString cs = some (digitsValue cs : Int) := by
  cases cs with
  | nil => exact absurd rfl hne
  | cons c ds =>
    have hc := digit_ne_sign c (hall c (List.mem_cons_self _ _))
    unfold bigIntSetString
    simp only [hc.1, hc.2.1, if_false]
    rw [parseDigits_of_digits (c :: ds) hne hall]
    rfl

/-- The text of a natural number, `big.Int.String`, is read back by `SetString`. -/
theorem bigIntSetString_repr (n : Nat) :
    bigIntSetString (toString ((n : Nat) : Int)).data = some (n : Int) := by
  obtain ⟨h1, h2, h3⟩ := toDigits_spec n
  have : (toString ((n : Nat) : Int)).data = Nat.toDigits 10 n := rfl
  rw [this, bigIntSetString_of_digits _ h3 h1, h2]

/-! ## Reading a fixed-point text -/

theorem splitAtE_none : ∀ cs : List Char, (∀ c ∈ cs, c ≠ 'E' ∧ c ≠ 'e') →
    splitAtE cs = none := by
  intro cs
  induction cs with
  | nil => intro _; rfl
  | cons c rest ih =>
    intro h
    have hc := h c (List.mem_cons_self _ _)
    unfold splitAtE
    have hnot : ¬ (c = 'E' ∨ c = 'e') := fun hor => hor.elim hc.1 hc.2
    rw [if_neg hnot, ih (fun x hx => h x (List.mem_cons_of_mem _ hx))]
    rfl

theorem splitDot_no_dot : ∀ cs : List Char, (∀ c ∈ cs, c ≠ '.') → splitDot cs = [cs] := by
  intro cs
  induction cs with
  | nil => intro _; rfl
  | cons c rest ih =>
    intro h
    unfold splitDot
    rw [if_neg (h c (List.mem_cons_self _ _)), ih (fun x hx => h x (List.mem_cons_of_mem _ hx))]

theorem splitDot_one_dot : ∀ ip fp : List Char, (∀ c ∈ ip, c ≠ '.') → (∀ c ∈ fp, c ≠ '.') →
    splitDot (ip ++ '.' :: fp) = [ip, fp] := by
  intro ip
  induction ip with
  | nil =>
    intro fp _ hfp
    simp only [List.nil_append]
    unfold splitDot
    rw [if_pos rfl, splitDot_no_dot fp hfp]
  | cons c rest ih =>
    intro fp hip hfp
    rw [List.cons_append]
    unfold splitDot
    rw [if_neg (hip c (List.mem_cons_self _ _)),
      ih fp (fun x hx => hip x (List.mem_cons_of_mem _ hx)) hfp]

/-- The function `decimal.NewFromString` on digits, a point and digits. -/
theorem newFromString_fixed (ip fp : List Char) (hne : ip ≠ [])
    (hip : ∀ c ∈ ip, isDecimalDigit c = true) (hfp : ∀ c ∈ fp, isDecimalDigit c = true)
    (hlen : fp.length ≤ 2 ^ 31) :
    Decimal.NewFromString (ip ++ '.' :: fp)
      = Except.ok ⟨(digitsValue (ip ++ fp) : Int), -(fp.length : Int)⟩ := by
  have hE : ∀ c ∈ ip ++ '.' :: fp, c ≠ 'E' ∧ c ≠ 'e' := by
    intro c hc
    rcases List.mem_append.mp hc with h | h
    · exact ⟨(digit_ne_sign c (hip c h)).2.2.2.1, (digit_ne_sign c (hip c h)).2.2.2.2⟩
    · rcases List.mem_cons.mp h with h | h
      · rw [h]; exact ⟨by decide, by decide⟩
      · exact ⟨(digit_ne_sign c (hfp c h)).2.2.2.1, (digit_ne_sign c (hfp c h)).2.2.2.2⟩
  have hall : ∀ c ∈ ip ++ fp, isDecimalDigit c = true := by
    intro c hc
    rcases List.mem_append.mp hc with h | h
    · exact hip c h
    · exact hfp c h
  have hne2 : ip ++ fp ≠ [] := by
    intro h
    exact hne (List.append_eq_nil.mp h).1
  unfold Decimal.NewFromString
  simp only [splitAtE_none _ hE]
  rw [splitDot_one_dot ip fp (fun c hc => (digit_ne_sign c (hip c hc)).2.2.1)
    (fun c hc => (digit_ne_sign c (hfp c hc)).2.2.1)]
  simp only
  unfold Decimal.ofParts
  rw [bigIntSetString_of_digits _ hne2 hall]
  simp only [zero_sub]
  have hrange : ¬ (-(fp.length : Int) < -(2 : Int) ^ 31 ∨ -(fp.length : Int) > (2 : Int) ^ 31 - 1) := by
    have : (fp.length : Int) ≤ 2 ^ 31 := by exact_mod_cast hlen
    omega
  rw [if_neg hrange]

/-- The end of `NewIntegerFromString` on a positive decimal with 8 fractional digits: the
scaling by `10 ^ 8`, the rounding, the text and its reading give the value back. -/
theorem scale_and_round (v : Nat) (hv : 0 < v) :
    (Decimal.mk (v : Int) (-8)).Sign = 1 ∧
    (Decimal.mk (v : Int) (-8)).Mul (Decimal.New 1 (Precision : Int))
      = some ⟨(v : Int), 0⟩ ∧
    bigIntSetString (Decimal.mk (v : Int) 0).StringFixed0.data = some (v : Int) := by
  refine ⟨?_, ?_, ?_⟩
  · unfold Decimal.Sign
    have hpos : (0 : Int) < (v : Int) := by exact_mod_cast hv
    exact Int.sign_eq_one_of_pos hpos
  · unfold Decimal.Mul Decimal.New Precision
    simp
  · have hnn : (0 : Int) ≤ (v : Int) := Int.natCast_nonneg v
    have h1 : (Decimal.mk (v : Int) 0).rescale (-(0 : Int) - 1) = ⟨(v : Int) * 10, -1⟩ := by
      unfold Decimal.rescale
      simp
    have hs : ¬ (Int.sign ((v : Int) * 10) < 0) := by
      have h0 : (0 : Int) ≤ (v : Int) * 10 := by omega
      have := Int.sign_nonneg.mpr h0
      omega
    have hsq : ¬ (Int.sign (v : Int) < 0 ∧ ((v : Int) * 10 + 5) % 10 ≠ 0) := by
      have := Int.sign_nonneg.mpr hnn
      omega
    have hq : ((v : Int) * 10 + 5) / 10 = (v : Int) := by omega
    have h2 : (Decimal.mk (v : Int) 0).Round 0 = ⟨(v : Int), 0⟩ := by
      unfold Decimal.Round
      rw [h1]
      simp only [hs, if_false, hq, hsq]
      rfl
    have hround : ((Decimal.mk (v : Int) 0).Round 0).rescale 0 = ⟨(v : Int), 0⟩ := by
      rw [h2]
      unfold Decimal.rescale
      simp
    unfold Decimal.StringFixed0
    rw [hround]
    exact bigIntSetString_repr v

/-! ## The text of an Integer -/

theorem integer_string_data (v : Nat) :
    (Integer.mk (v : Int)).String.data =
      if 8 < (Nat.toDigits 10 v).length then
        (Nat.toDigits 10 v).take ((Nat.toDigits 10 v).length - 8) ++
          '.' :: (Nat.toDigits 10 v).drop ((Nat.toDigits 10 v).length - 8)
      else
        '0' :: '.' ::
          (List.replicate (8 - (Nat.toDigits 10 v).length) '0' ++ Nat.toDigits 10 v) := by
  have hs : toString ((v : Nat) : Int) = String.mk (Nat.toDigits 10 v) := rfl
  unfold Integer.String Precision
  simp only [hs, String.length_mk]
  by_cases h : 8 < (Nat.toDigits 10 v).length
  · have hp : ((Nat.toDigits 10 v).length : Int) - ((8 : Nat) : Int) > 0 := by omega
    have hn : (((Nat.toDigits 10 v).length : Int) - ((8 : Nat) : Int)).toNat
        = (Nat.toDigits 10 v).length - 8 := by omega
    rw [if_pos hp, if_pos h, hn]
    simp [String.data_take, String.data_drop]
  · have hp : ¬ (((Nat.toDigits 10 v).length : Int) - ((8 : Nat) : Int) > 0) := by omega
    have hn : (-(((Nat.toDigits 10 v).length : Int) - ((8 : Nat) : Int))).toNat
        = 8 - (Nat.toDigits 10 v).length := by omega
    rw [if_neg hp, if_neg h, hn]
    rfl

/-- The text of a positive Integer: digits, a point and 8 digits, which together write the
scaled value. -/
theorem integer_string_shape (v : Nat) :
    ∃ ip fp : List Char,
      (Integer.mk (v : Int)).String.data = ip ++ '.' :: fp ∧
      ip ≠ [] ∧ fp.length = 8 ∧
      (∀ c ∈ ip, isDecimalDigit c = true) ∧ (∀ c ∈ fp, isDecimalDigit c = true) ∧
      digitsValue (ip ++ fp) = v ∧
      digitsValue ip = v / 10 ^ 8 ∧ digitsValue fp = v % 10 ^ 8 := by
  obtain ⟨h1, h2, h3⟩ := toDigits_spec v
  have hpos : 0 < (Nat.toDigits 10 v).length := List.length_pos.mpr h3
  rw [integer_string_data]
  by_cases h : 8 < (Nat.toDigits 10 v).length
  · rw [if_pos h]
    have hfl : ((Nat.toDigits 10 v).drop ((Nat.toDigits 10 v).length - 8)).length = 8 := by
      rw [List.length_drop]; omega
    have hipl : ((Nat.toDigits 10 v).take ((Nat.toDigits 10 v).length - 8)).length
        = (Nat.toDigits 10 v).length - 8 := by
      rw [List.length_take]; omega
    have hfd : ∀ c ∈ (Nat.toDigits 10 v).drop ((Nat.toDigits 10 v).length - 8),
        isDecimalDigit c = true := fun c hc => h1 c (List.mem_of_mem_drop hc)
    have hval : digitsValue ((Nat.toDigits 10 v).take ((Nat.toDigits 10 v).length - 8) ++
        (Nat.toDigits 10 v).drop ((Nat.toDigits 10 v).length - 8)) = v := by
      rw [List.take_append_drop, h2]
    have hsplit := digitsValue_append ((Nat.toDigits 10 v).take ((Nat.toDigits 10 v).length - 8))
      ((Nat.toDigits 10 v).drop ((Nat.toDigits 10 v).length - 8))
    rw [hval, hfl] at hsplit
    have hlt := digitsValue_lt _ hfd
    rw [hfl] at hlt
    refine ⟨_, _, rfl, ?_, hfl, fun c hc => h1 c (List.mem_of_mem_take hc), hfd, hval, ?_, ?_⟩
    · intro hnil
      rw [hnil] at hipl
      simp only [List.length_nil] at hipl
      omega
    · norm_num at hsplit hlt ⊢
      omega
    · norm_num at hsplit hlt ⊢
      omega
  · rw [if_neg h]
    have hfl : (List.replicate (8 - (Nat.toDigits 10 v).length) '0'
        ++ Nat.toDigits 10 v).length = 8 := by
      rw [List.length_append, List.length_replicate]; omega
    have hfd : ∀ c ∈ List.replicate (8 - (Nat.toDigits 10 v).length) '0' ++ Nat.toDigits 10 v,
        isDecimalDigit c = true := by
      intro c hc
      rcases List.mem_append.mp hc with hz | hd
      · rw [(List.mem_replicate.mp hz).2]; rfl
      · exact h1 c hd
    have hfv : digitsValue (List.replicate (8 - (Nat.toDigits 10 v).length) '0'
        ++ Nat.toDigits 10 v) = v := by
      rw [digitsValue_zeros, h2]
    have hlt := digitsValue_lt _ hfd
    rw [hfl, hfv] at hlt
    refine ⟨['0'], _, rfl, by simp, hfl, ?_, hfd, ?_, ?_, ?_⟩
    · intro c hc
      rw [List.mem_singleton.mp hc]; rfl
    · rw [List.singleton_append, digitsValue_cons, hfv]
      have h0 : ('0' : Char).toNat - 48 = 0 := rfl
      rw [h0]
      simp
    · have h0 : digitsValue ['0'] = 0 := rfl
      rw [h0]
      norm_num at hlt ⊢
      omega
    · rw [hfv]
      norm_num at hlt ⊢
      omega

/-- The function `NewIntegerFromString` on digits, a point and 8 digits that write a positive
value: the value is returned. -/
theorem newIntegerFromString_fixed (x : String) (ip fp : List Char) (v : Nat)
    (hdata : x.data = ip ++ '.' :: fp) (hne : ip ≠ []) (hlen : fp.length = 8)
    (hip : ∀ c ∈ ip, isDecimalDigit c = true) (hfp : ∀ c ∈ fp, isDecimalDigit c = true)
    (hval : digitsValue (ip ++ fp) = v) (hv : 0 < v) :
    NewIntegerFromString x = Outcome.ok ⟨(v : Int)⟩ := by
  obtain ⟨hsign, hmul, hset⟩ := scale_and_round v hv
  have hparse := newFromString_fixed ip fp hne hip hfp (by rw [hlen]; decide)
  rw [hval, hlen] at hparse
  have hparse2 : Decimal.NewFromString x.data = Except.ok ⟨(v : Int), -8⟩ := by
    rw [hdata, hparse]
    rfl
  unfold NewIntegerFromString
  rw [hparse2]
  simp only
  have hnot : ¬ ((Decimal.mk (v : Int) (-8)).Sign ≤ 0) := by rw [hsign]; decide
  rw [if_neg hnot, hmul]
  simp only
  rw [hset]

/-! ## Claims on the text of an Integer -/

/-- C15 fails on the code: for the input `0.000000001`, a positive decimal with more than 8
fractional digits, `NewIntegerFromString` returns without error an Integer whose scaled value
is 0, whose `Sign()` is 0 and not 1: the test `d.Sign() <= 0` is made before the product by
`10 ^ 8` is rounded to a whole number. Every input that reads as a non-positive decimal is
rejected with an error. -/
theorem newIntegerFromString_rounds_to_zero :
    Decimal.NewFromString "0.000000001".data = Except.ok ⟨1, -9⟩ ∧
    (Decimal.mk 1 (-9)).Sign = 1 ∧
    NewIntegerFromString "0.000000001" = Outcome.ok ⟨0⟩ ∧
    (Integer.mk 0).Sign = 0 ∧
    NewIntegerFromString "0.000000004" = Outcome.ok ⟨0⟩ ∧
    NewIntegerFromString "0.000000005" = Outcome.ok ⟨1⟩ ∧
    (∀ (x : String) (d : Decimal), Decimal.NewFromString x.data = Except.ok d → d.Sign ≤ 0 →
      NewIntegerFromString x = Outcome.error (IntegerError.invalid x)) := by
  refine ⟨rfl, by decide, by decide, by decide, by decide, by decide, ?_⟩
  intro x d hd hs
  unfold NewIntegerFromString
  rw [hd]
  simp only
  rw [if_pos hs]

/-- C16: for an Integer `x` with positive scaled value, `x.String()` is the decimal text of
`value / 10 ^ 8` with exactly 8 fractional digits and a non-empty integer part,
`NewIntegerFromString(x.String())` succeeds and yields `x`, and, `strconv.Unquote` giving back
the text that `strconv.Quote` quoted, `UnmarshalJSON(MarshalJSON(x))` yields `x`. -/
theorem text_round_trip (sc : Strconv) (x : Integer) (hx : 0 < x.i)
    (hquote : sc.Unquote (sc.Quote x.String) = Except.ok x.String) :
    (∃ ip fp : List Char,
      x.String.data = ip ++ '.' :: fp ∧ ip ≠ [] ∧ fp.length = 8 ∧
      (∀ c ∈ ip, isDecimalDigit c = true) ∧ (∀ c ∈ fp, isDecimalDigit c = true) ∧
      (digitsValue ip : Int) = x.i / 10 ^ 8 ∧ (digitsValue fp : Int) = x.i % 10 ^ 8) ∧
    NewIntegerFromString x.String = Outcome.ok x ∧
    (x.MarshalJSON sc).2 = none ∧
    ∀ r : Integer, r.UnmarshalJSON sc (x.MarshalJSON sc).1 = Outcome.ok x := by
  obtain ⟨v, hv⟩ := Int.eq_ofNat_of_zero_le (le_of_lt hx)
  have hxv : x = ⟨(v : Int)⟩ := by
    cases x
    simp only at hv
    rw [hv]
  have hvpos : 0 < v := by
    rw [hv] at hx
    exact_mod_cast hx
  obtain ⟨ip, fp, hdata, hne, hlen, hip, hfp, hval, hint, hfrac⟩ := integer_string_shape v
  have hparse : NewIntegerFromString x.String = Outcome.ok x := by
    rw [hxv]
    exact newIntegerFromString_fixed _ ip fp v hdata hne hlen hip hfp hval hvpos
  refine ⟨⟨ip, fp, by rw [hxv]; exact hdata, hne, hlen, hip, hfp, ?_, ?_⟩, hparse, rfl, ?_⟩
  · rw [hv, hint]
    norm_cast
  · rw [hv, hfrac]
    norm_cast
  · intro r
    unfold Integer.UnmarshalJSON Integer.MarshalJSON
    simp only [hquote, hparse]
    have hnn : 0 ≤ x.i := le_of_lt hx
    obtain ⟨hbytes, _, _⟩ := bigIntBytesAux_spec x.i.natAbs x.i.natAbs (le_refl _)
    have hback : setBytes (bigIntBytes x.i) = x.i := by
      rw [setBytes_eq_bigEndianValue]
      unfold bigIntBytes
      rw [hbytes]
      exact Int.natAbs_of_nonneg hnn
    rw [hback]

/-- Witness of C16: the amount `NewInteger(10000)`, whose text is `10000.00000000`. -/
theorem text_round_trip_witness :
    (NewInteger 10000).String = "10000.00000000" ∧
    0 < (NewInteger 10000).i ∧
    exStrconv.Unquote (exStrconv.Quote (NewInteger 10000).String)
      = Except.ok (NewInteger 10000).String ∧
    ((∃ ip fp : List Char,
      (NewInteger 10000).String.data = ip ++ '.' :: fp ∧ ip ≠ [] ∧ fp.length = 8 ∧
      (∀ c ∈ ip, isDecimalDigit c = true) ∧ (∀ c ∈ fp, isDecimalDigit c = true) ∧
      (digitsValue ip : Int) = (NewInteger 10000).i / 10 ^ 8 ∧
      (digitsValue fp : Int) = (NewInteger 10000).i % 10 ^ 8) ∧
    NewIntegerFromString (NewInteger 10000).String = Outcome.ok (NewInteger 10000) ∧
    ((NewInteger 10000).MarshalJSON exStrconv).2 = none ∧
    ∀ r : Integer,
      r.UnmarshalJSON exStrconv ((NewInteger 10000).MarshalJSON exStrconv).1
        = Outcome.ok (NewInteger 10000)) :=
  ⟨by decide, by decide, rfl,
    text_round_trip exStrconv (NewInteger 10000) (by decide) rfl⟩

end Mixin
